import Mathlib

/-!
# Verification of the ollama-models filtering, sorting and date engine

Shallow embedding of `ollama-models.py` (the query engine over a catalog of
model records).  Conventions of the embedding:

* Python `float` values are modelled as exact fractions (`PyFloat`, an
  integer numerator over a positive natural denominator, compared by
  cross-multiplication; `PyFloat.toRat` gives the rational value).  Every
  numeric value reached by the claims (`0.5`, `7`, thresholds such as `4`
  and `28`) is exactly representable in binary floating point, so the exact
  comparisons agree with the IEEE ones on those inputs.
* Code that can raise `ValueError` is modelled in `Except PyErr`; the
  exception-free fragments are plain functions.
* `float(str)` / `int(str)` are modelled on their finite-decimal fragment
  (optional sign, digits, one dot, optional exponent); the special literals
  `inf`/`nan` and underscore separators are outside the modelled fragment.
* The regexes of the source are ASCII (`\d`, `[a-zA-Z]`, `[\d.]`, `[KMB]`);
  character classes are modelled with the corresponding ASCII predicates,
  and strings are handled as their lists of characters.
* `dateutil.parser.parse` is modelled on the catalog's canonical timestamp
  formats `YYYY-MM-DD` and `YYYY-MM-DD HH:MM:SS` (the formats written by
  `ollama-update-models.py`); other inputs are treated as unparseable.
  `datetime.datetime.now()` is passed explicitly as a parameter.
* Debug printing to stderr is modelled as a trace (`List DbgMsg`) returned
  next to the value, so that the influence of the `--debug` flag is visible.
-/

namespace OllamaModels

/-- The one exception kind raised by the numeric code paths (`ValueError`). -/
inductive PyErr
  | valueError
  deriving Repr, DecidableEq

instance {ε α : Type} [DecidableEq ε] [DecidableEq α] : DecidableEq (Except ε α) :=
  fun x y =>
    match x, y with
    | .ok a, .ok b => if h : a = b then .isTrue (by rw [h]) else .isFalse (by simp [h])
    | .error a, .error b => if h : a = b then .isTrue (by rw [h]) else .isFalse (by simp [h])
    | .ok _, .error _ => .isFalse (by simp)
    | .error _, .ok _ => .isFalse (by simp)

/-- Exact value of a Python float: an integer numerator over a (positive by
construction) natural denominator.  Kept unnormalized so that all operations
are kernel-computable. -/
structure PyFloat where
  num : ℤ
  den : ℕ
  deriving Repr, DecidableEq

namespace PyFloat

/-- The rational value of a `PyFloat`. -/
def toRat (a : PyFloat) : ℚ := (a.num : ℚ) / (a.den : ℚ)

/-- `a ≤ b` by cross-multiplication (denominators are positive by
construction). -/
def leB (a b : PyFloat) : Bool := a.num * (b.den : ℤ) ≤ b.num * (a.den : ℤ)

/-- `a == b` by cross-multiplication. -/
def eqB (a b : PyFloat) : Bool := a.num * (b.den : ℤ) = b.num * (a.den : ℤ)

/-- `a ≥ b`. -/
def geB (a b : PyFloat) : Bool := leB b a

def ofNat (n : ℕ) : PyFloat := ⟨n, 1⟩

def divNat (a : PyFloat) (k : ℕ) : PyFloat := ⟨a.num, a.den * k⟩

def mulNat (a : PyFloat) (k : ℕ) : PyFloat := ⟨a.num * k, a.den⟩

def mulSign (s : ℤ) (a : PyFloat) : PyFloat := ⟨s * a.num, a.den⟩

def add (a b : PyFloat) : PyFloat :=
  ⟨a.num * (b.den : ℤ) + b.num * (a.den : ℤ), a.den * b.den⟩

end PyFloat

/-- Numeric value of a list of ASCII digits (most significant first). -/
def natOfDigits (ds : List Char) : ℕ :=
  ds.foldl (fun n c => n * 10 + (c.toNat - '0'.toNat)) 0

/-- Exact value of a decimal literal with integer part `ip` and fractional
part `fp`. -/
def pyOfDecimal (ip fp : List Char) : PyFloat :=
  ⟨(natOfDigits ip : ℤ) * 10 ^ fp.length + (natOfDigits fp : ℤ), 10 ^ fp.length⟩

/-- Python whitespace stripping (`str.strip()`), on the ASCII fragment. -/
def pyStrip (cs : List Char) : List Char :=
  ((cs.dropWhile Char.isWhitespace).reverse.dropWhile Char.isWhitespace).reverse

/-- Case-insensitive normalisation (`str.lower()`), on the ASCII fragment. -/
def lowerChars (cs : List Char) : List Char := cs.map Char.toLower

/-- Python substring containment (`needle in hay`). -/
def containsSub (hay needle : List Char) : Bool :=
  if needle.isPrefixOf hay then true
  else
    match hay with
    | [] => false
    | _ :: t => containsSub t needle

/-- Model of Python `float(s)` on the finite-decimal fragment: strip
whitespace, optional sign, digits with at most one dot (at least one digit),
optional decimal exponent.  Anything else raises `ValueError`. -/
def pyFloatOfChars (s : List Char) : Except PyErr PyFloat :=
  let cs := pyStrip s
  let signAndRest : ℤ × List Char :=
    match cs with
    | '+' :: rest => (1, rest)
    | '-' :: rest => (-1, rest)
    | _ => (1, cs)
  let sign := signAndRest.1
  let cs := signAndRest.2
  let ip := cs.takeWhile Char.isDigit
  let cs1 := cs.drop ip.length
  let fpAndRest : List Char × List Char :=
    match cs1 with
    | '.' :: r => (r.takeWhile Char.isDigit, r.dropWhile Char.isDigit)
    | _ => ([], cs1)
  let fp := fpAndRest.1
  let cs2 := fpAndRest.2
  if ip = [] ∧ fp = [] then .error .valueError
  else
    let mant := PyFloat.mulSign sign (pyOfDecimal ip fp)
    match cs2 with
    | [] => .ok mant
    | e :: rest =>
      if e = 'e' ∨ e = 'E' then
        let expSignAndRest : Bool × List Char :=
          match rest with
          | '+' :: r => (false, r)
          | '-' :: r => (true, r)
          | _ => (false, rest)
        let ds := expSignAndRest.2
        if ds ≠ [] ∧ ds.all Char.isDigit then
          .ok (if expSignAndRest.1 then mant.divNat (10 ^ natOfDigits ds)
               else mant.mulNat (10 ^ natOfDigits ds))
        else .error .valueError
      else .error .valueError

/-- Model of Python `float(s)` applied to a string value. -/
def pyFloatOfString (s : String) : Except PyErr PyFloat :=
  pyFloatOfChars s.data

/-- Model of Python `int(s)`: strip whitespace, optional sign, at least one
digit; anything else raises `ValueError`. -/
def pyInt (s : String) : Except PyErr ℤ :=
  let cs := pyStrip s.data
  let signAndRest : ℤ × List Char :=
    match cs with
    | '+' :: rest => (1, rest)
    | '-' :: rest => (-1, rest)
    | _ => (1, cs)
  let ds := signAndRest.2
  if ds ≠ [] ∧ ds.all Char.isDigit then .ok (signAndRest.1 * natOfDigits ds)
  else .error .valueError

/-- `parse_size` (ollama-models.py:116): match `(\d+\.?\d*)([a-zA-Z]+)` at
the start of the string; unit `b` leaves the value in billions, `m` divides
by 1000, `k` by 1,000,000, any other letter unit passes the value through
unchanged.  No match returns `none` (Python `None`). -/
def parse_size (size_str : String) : Option PyFloat :=
  let cs := size_str.data
  let d1 := cs.takeWhile Char.isDigit
  if d1 = [] then none
  else
    let rest1 := cs.drop d1.length
    let fracAndRest : List Char × List Char :=
      match rest1 with
      | '.' :: r => (r.takeWhile Char.isDigit, r.dropWhile Char.isDigit)
      | _ => ([], rest1)
    let d2 := fracAndRest.1
    let unit := fracAndRest.2.takeWhile Char.isAlpha
    if unit = [] then none
    else
      let value := pyOfDecimal d1 d2
      let u := lowerChars unit
      if u = ['b'] then some value
      else if u = ['m'] then some (value.divNat 1000)
      else if u = ['k'] then some (value.divNat 1000000)
      else some value

/-- `parse_pull_count` (ollama-models.py:189): empty string is 0; match
`([\d.]+)([KMB]?)` at the start — no match is 0; `float` of the numeric
group raises `ValueError` when it has no digit or more than one dot;
`K`/`M`/`B` multiply by 10³/10⁶/10⁹. -/
def parsePullChars (cs : List Char) : Except PyErr PyFloat :=
  if cs = [] then .ok (PyFloat.ofNat 0)
  else
    let grp := cs.takeWhile (fun c => c.isDigit || c = '.')
    if grp = [] then .ok (PyFloat.ofNat 0)
    else
      if grp.count '.' ≤ 1 ∧ grp.any Char.isDigit then
        let ip := grp.takeWhile Char.isDigit
        let fp := (grp.drop ip.length).drop 1
        let v := pyOfDecimal ip fp
        match cs.drop grp.length with
        | 'K' :: _ => .ok (v.mulNat 1000)
        | 'M' :: _ => .ok (v.mulNat 1000000)
        | 'B' :: _ => .ok (v.mulNat 1000000000)
        | _ => .ok v
      else .error .valueError

/-- `parse_pull_count` applied to a string value. -/
def parse_pull_count (pull_count : String) : Except PyErr PyFloat :=
  parsePullChars pull_count.data

example : (parse_size "7B").map PyFloat.toRat = some 7 := by
  have h : parse_size "7B" = some ⟨7, 1⟩ := by decide
  rw [h]; norm_num [PyFloat.toRat]
example : (parse_size "500m").map PyFloat.toRat = some (1/2) := by
  have h : parse_size "500m" = some ⟨500, 1000⟩ := by decide
  rw [h]; norm_num [PyFloat.toRat]
example : parse_size "abc" = none := by decide
example : (parse_pull_count "3.3M").map PyFloat.toRat = .ok 3300000 := by
  have h : parse_pull_count "3.3M" = .ok ⟨33000000, 10⟩ := by decide
  rw [h]; simp only [Except.map]; norm_num [PyFloat.toRat]
example : parse_pull_count "" = .ok ⟨0, 1⟩ := by decide
example : parse_pull_count ".." = .error .valueError := by decide
example : pyFloatOfString "+4" = .ok ⟨4, 1⟩ := by decide
example : pyFloatOfString "x" = .error .valueError := by decide
example : pyInt "5" = .ok 5 := by decide
example : PyFloat.leB ⟨1, 2⟩ ⟨3, 4⟩ = true := by decide
example : containsSub "hello".data "ell".data = true := by decide
example : containsSub "hello".data "zz".data = false := by decide

/-! ## Dates -/

/-- A naive `datetime.datetime` value (the catalog's canonical timestamps
carry no timezone). -/
structure DateTime where
  year : ℕ
  month : ℕ
  day : ℕ
  hour : ℕ
  minute : ℕ
  second : ℕ
  deriving Repr, DecidableEq

/-- Gregorian leap-year rule. -/
def leapYear (y : ℕ) : Bool := y % 4 = 0 ∧ (y % 100 ≠ 0 ∨ y % 400 = 0)

/-- Number of days in a month. -/
def daysInMonth (y m : ℕ) : ℕ :=
  if m = 2 then (if leapYear y then 29 else 28)
  else if m = 4 ∨ m = 6 ∨ m = 9 ∨ m = 11 then 30
  else 31

namespace DateTime

/-- Python `datetime` comparison: lexicographic on the six fields. -/
def leB (a b : DateTime) : Bool :=
  if a.year ≠ b.year then decide (a.year < b.year)
  else if a.month ≠ b.month then decide (a.month < b.month)
  else if a.day ≠ b.day then decide (a.day < b.day)
  else if a.hour ≠ b.hour then decide (a.hour < b.hour)
  else if a.minute ≠ b.minute then decide (a.minute < b.minute)
  else decide (a.second ≤ b.second)

/-- Step one calendar day backwards. -/
def decDay (t : DateTime) : DateTime :=
  if t.day > 1 then { t with day := t.day - 1 }
  else if t.month > 1 then
    { t with month := t.month - 1, day := daysInMonth t.year (t.month - 1) }
  else { t with year := t.year - 1, month := 12, day := 31 }

/-- `t` minus a relativedelta of `n` days: exact day arithmetic. -/
def subDays (t : DateTime) (n : ℕ) : DateTime := decDay^[n] t

/-- `t` minus a relativedelta of `n` months: calendar month arithmetic with the day
clamped to the length of the target month. -/
def subMonths (t : DateTime) (n : ℕ) : DateTime :=
  let tot := t.year * 12 + (t.month - 1) - n
  let y := tot / 12
  let m := tot % 12 + 1
  { t with year := y, month := m, day := min t.day (daysInMonth y m) }

/-- `t` minus a relativedelta of `n` years: calendar year arithmetic with the day
clamped (Feb 29 falls back to Feb 28). -/
def subYears (t : DateTime) (n : ℕ) : DateTime :=
  let y := t.year - n
  { t with year := y, day := min t.day (daysInMonth y t.month) }

end DateTime

/-- Parse `HH:MM:SS` (the whole remaining input). -/
def parseTimeChars (cs : List Char) : Option (ℕ × ℕ × ℕ) :=
  let h := cs.takeWhile Char.isDigit
  match cs.drop h.length with
  | ':' :: r =>
    let mi := r.takeWhile Char.isDigit
    match r.drop mi.length with
    | ':' :: r2 =>
      let se := r2.takeWhile Char.isDigit
      if h ≠ [] ∧ mi ≠ [] ∧ se ≠ [] ∧ r2.drop se.length = [] then
        some (natOfDigits h, natOfDigits mi, natOfDigits se)
      else none
    | _ => none
  | _ => none

/-- Model of `dateutil.parser.parse` restricted to the canonical catalog
formats `YYYY-MM-DD` and `YYYY-MM-DD HH:MM:SS`, producing a validated naive
timestamp; everything else is unparseable (the `ValueError` branch of the
callers). -/
def parseAbsolute (s : String) : Option DateTime :=
  let cs := s.data
  let y := cs.takeWhile Char.isDigit
  match cs.drop y.length with
  | '-' :: r2 =>
    let mo := r2.takeWhile Char.isDigit
    match r2.drop mo.length with
    | '-' :: r4 =>
      let d := r4.takeWhile Char.isDigit
      let timeOpt : Option (ℕ × ℕ × ℕ) :=
        match r4.drop d.length with
        | [] => some (0, 0, 0)
        | ' ' :: r6 => parseTimeChars r6
        | _ => none
      match timeOpt with
      | none => none
      | some (h, mi, se) =>
        if y ≠ [] ∧ mo ≠ [] ∧ d ≠ [] then
          let yv := natOfDigits y
          let mv := natOfDigits mo
          let dv := natOfDigits d
          if 1 ≤ yv ∧ yv ≤ 9999 ∧ 1 ≤ mv ∧ mv ≤ 12 ∧ 1 ≤ dv ∧
              dv ≤ daysInMonth yv mv ∧ h ≤ 23 ∧ mi ≤ 59 ∧ se ≤ 59 then
            some ⟨yv, mv, dv, h, mi, se⟩
          else none
        else none
    | _ => none
  | _ => none

/-- Match `(\d+)\s+(day|days|week|weeks|month|months|year|years)\s+ago`
against the start of the (already lowercased) input; trailing input is
allowed, as with `re.match`. -/
def relMatch (cs : List Char) : Option (ℕ × List Char) :=
  let n := cs.takeWhile Char.isDigit
  if n = [] then none
  else
    let r1 := cs.drop n.length
    let w1 := r1.takeWhile Char.isWhitespace
    if w1 = [] then none
    else
      let r2 := r1.drop w1.length
      let u := r2.takeWhile Char.isAlpha
      if u = "day".data ∨ u = "days".data ∨ u = "week".data ∨ u = "weeks".data ∨
          u = "month".data ∨ u = "months".data ∨ u = "year".data ∨ u = "years".data then
        let r3 := r2.drop u.length
        let w2 := r3.takeWhile Char.isWhitespace
        if w2 = [] then none
        else if "ago".data.isPrefixOf (r3.drop w2.length) then some (natOfDigits n, u)
        else none
      else none

/-- Debug messages printed to stderr; the payloads record which print site
fired.  Only their presence matters to the claims. -/
inductive DbgMsg
  | couldNotParseSize (s : String)
  | comparingSize (s f : String)
  | sizeCompared (s f : String) (res : Bool)
  | parsedModelDate (u : String)
  | dateChecked (res : Bool)
  | couldNotParseDate (s : String)
  | errorComparingDates
  | noUpdatedField (model : String)
  | sizeMatchesAll (model size : String)
  | sizeNotMatchesAll (model size : String)
  | sortingBy (dim : String)
  | sortingError
  deriving Repr, DecidableEq

/-- `parse_date_string` (ollama-models.py:220): absolute dates first, then
relative expressions `"<n> <unit> ago"` computed against `now`; `None` when
neither form matches. -/
def parse_date_string (date_str : String) (now : DateTime) (debug : Bool) :
    Option DateTime × List DbgMsg :=
  if date_str = "" then (none, [])
  else
    match parseAbsolute date_str with
    | some d => (some d, [])
    | none =>
      match relMatch (lowerChars date_str.data) with
      | some (n, u) =>
        let d :=
          if u = "day".data ∨ u = "days".data then now.subDays n
          else if u = "week".data ∨ u = "weeks".data then now.subDays (7 * n)
          else if u = "month".data ∨ u = "months".data then now.subMonths n
          else now.subYears n
        (some d, [])
      | none => (none, if debug then [.couldNotParseDate date_str] else [])

/-- Everything after the first `:` (`s.split(':', 1)[1]`). -/
def splitColonTail (cs : List Char) : List Char :=
  (cs.dropWhile (· ≠ ':')).drop 1

/-- `date_matches_filter` (ollama-models.py:270).  Fail-open: empty filter
or empty/unparseable record date, or an unparseable reference expression,
all return `True`; otherwise `since:`/`after:`/bare compare `≥`,
`before:`/`until:` compare `≤`, and `on:` compares the calendar day. -/
def date_matches_filter (updated_date date_filter : String) (now : DateTime)
    (debug : Bool) : Bool × List DbgMsg :=
  if date_filter = "" ∨ updated_date = "" then (true, [])
  else
    match parseAbsolute updated_date with
    | none => (true, if debug then [.errorComparingDates] else [])
    | some model_date =>
      let pre := if debug then [.parsedModelDate updated_date] else []
      let fd := date_filter.data
      if "since:".data.isPrefixOf fd ∨ "after:".data.isPrefixOf fd then
        let pr := parse_date_string (String.mk (splitColonTail fd)) now debug
        match pr.1 with
        | some filter_date =>
          let r := filter_date.leB model_date
          (r, pre ++ pr.2 ++ if debug then [.dateChecked r] else [])
        | none => (true, pre ++ pr.2)
      else if "before:".data.isPrefixOf fd ∨ "until:".data.isPrefixOf fd then
        let pr := parse_date_string (String.mk (splitColonTail fd)) now debug
        match pr.1 with
        | some filter_date =>
          let r := model_date.leB filter_date
          (r, pre ++ pr.2 ++ if debug then [.dateChecked r] else [])
        | none => (true, pre ++ pr.2)
      else if "on:".data.isPrefixOf fd then
        let pr := parse_date_string (String.mk (splitColonTail fd)) now debug
        match pr.1 with
        | some filter_date =>
          let r := decide (model_date.year = filter_date.year ∧
            model_date.month = filter_date.month ∧ model_date.day = filter_date.day)
          (r, pre ++ pr.2 ++ if debug then [.dateChecked r] else [])
        | none => (true, pre ++ pr.2)
      else
        let pr := parse_date_string date_filter now debug
        match pr.1 with
        | some filter_date =>
          let r := filter_date.leB model_date
          (r, pre ++ pr.2 ++ if debug then [.dateChecked r] else [])
        | none => (true, pre ++ pr.2)

/-- `size_matches_filter` (ollama-models.py:143): empty filter matches;
unparseable size tag never matches; `+`/`-` compare `≥`/`≤` against
`float(filter[1:])`, anything else compares for equality against
`float(filter)` — the `float` call raises on malformed thresholds. -/
def size_matches_filter (size_str size_filter : String) (debug : Bool) :
    Except PyErr Bool × List DbgMsg :=
  if size_filter = "" then (.ok true, [])
  else
    match parse_size size_str with
    | none => (.ok false, if debug then [.couldNotParseSize size_str] else [])
    | some size_value =>
      let pre := if debug then [.comparingSize size_str size_filter] else []
      match size_filter.data with
      | '+' :: rest =>
        match pyFloatOfChars rest with
        | .error e => (.error e, pre)
        | .ok filter_value =>
          let r := size_value.geB filter_value
          (.ok r, pre ++ if debug then [.sizeCompared size_str size_filter r] else [])
      | '-' :: rest =>
        match pyFloatOfChars rest with
        | .error e => (.error e, pre)
        | .ok filter_value =>
          let r := size_value.leB filter_value
          (.ok r, pre ++ if debug then [.sizeCompared size_str size_filter r] else [])
      | other =>
        match pyFloatOfChars other with
        | .error e => (.error e, pre)
        | .ok filter_value =>
          let r := size_value.eqB filter_value
          (.ok r, pre ++ if debug then [.sizeCompared size_str size_filter r] else [])

/-- `popularity_matches_filter` (ollama-models.py:346): empty filter
matches; the record's pull count is parsed first (and can raise); `top…`
always matches here (handled later by truncation); `+`/`-` compare
`≥`/`≤`; otherwise equality, with a `ValueError` from the threshold parse
caught and turned into `False`. -/
def popularity_matches_filter (pull_count popularity_filter : String) :
    Except PyErr Bool :=
  if popularity_filter = "" then .ok true
  else
    match parse_pull_count pull_count with
    | .error e => .error e
    | .ok numeric_pull_count =>
      if "top".data.isPrefixOf popularity_filter.data then .ok true
      else
        match popularity_filter.data with
        | '+' :: rest =>
          match parsePullChars rest with
          | .error e => .error e
          | .ok filter_value => .ok (numeric_pull_count.geB filter_value)
        | '-' :: rest =>
          match parsePullChars rest with
          | .error e => .error e
          | .ok filter_value => .ok (numeric_pull_count.leB filter_value)
        | other =>
          match parsePullChars other with
          | .ok filter_value => .ok (numeric_pull_count.eqB filter_value)
          | .error _ => .ok false

example : parseAbsolute "2023-06-01 14:00:00" = some ⟨2023, 6, 1, 14, 0, 0⟩ := by decide
example : parseAbsolute "2023-06-01" = some ⟨2023, 6, 1, 0, 0, 0⟩ := by decide
example : parseAbsolute "garbage" = none := by decide
example : (date_matches_filter "2023-06-01 14:00:00" "on:2023-06-01" ⟨2025, 1, 1, 0, 0, 0⟩ false).1 = true := by decide
example : (date_matches_filter "2023-06-02 00:00:01" "on:2023-06-01" ⟨2025, 1, 1, 0, 0, 0⟩ false).1 = false := by decide
example : (size_matches_filter "7b" "+4" false).1 = .ok true := by decide
example : (size_matches_filter "70b" "-28" false).1 = .ok false := by decide
example : (size_matches_filter "7b" "+x" false).1 = .error .valueError := by decide
example : popularity_matches_filter "5" ".." = .ok false := by decide
example : popularity_matches_filter "5" "+.." = .error .valueError := by decide
example : (parse_date_string "3 months ago" ⟨2025, 3, 31, 12, 0, 0⟩ false).1 =
    some ⟨2024, 12, 31, 12, 0, 0⟩ := by decide

/-! ## Records, arguments and the filter pipeline -/

/-- One catalog record (`<model>.json`).  `capabilities` and `sizes` are
always written by `ollama-update-models.py`; the remaining fields are
optional. -/
structure ModelRecord where
  model : String
  capabilities : List String := []
  sizes : List String := []
  pull_count : Option String := none
  updated : Option String := none
  updated_relative : Option String := none
  deriving Repr, DecidableEq

/-- A surviving record together with the `matched_sizes` annotation the
pipeline attaches when a size filter is active. -/
structure MatchedRecord where
  record : ModelRecord
  matched_sizes : Option (List String) := none
  deriving Repr, DecidableEq

/-- The parsed command-line arguments relevant to the engine.  `none`
models an unsupplied flag. -/
structure Args where
  name : Option String := none
  capability : Option String := none
  size : Option (List String) := none
  popularity : Option String := none
  updated : Option String := none
  all : Bool := false
  long : Bool := false
  debug : Bool := false
  deriving Repr, DecidableEq

/-- Python truthiness of an optional string (`if args.name:`). -/
def truthyS (o : Option String) : Bool := o.getD "" ≠ ""

/-- Python truthiness of an optional list (`if args.size:`). -/
def truthyL (o : Option (List String)) : Bool := o.getD [] ≠ []

/-- Inner loop of the size check (ollama-models.py:671-675): a size tag must
match ALL provided size filters; the loop breaks at the first failure. -/
def sizeAllM (filters : List String) (size : String) (debug : Bool) :
    Except PyErr Bool × List DbgMsg :=
  match filters with
  | [] => (.ok true, [])
  | f :: fs =>
    let r := size_matches_filter size f debug
    match r.1 with
    | .error e => (.error e, r.2)
    | .ok b =>
      if b then
        let rest := sizeAllM fs size debug
        (rest.1, r.2 ++ rest.2)
      else (.ok false, r.2)

/-- Outer loop of the size check (ollama-models.py:668-682): collect the
size tags that match all filters, in order. -/
def matchedSizesLoop (filters : List String) (sizes : List String)
    (model : String) (debug : Bool) : Except PyErr (List String) × List DbgMsg :=
  match sizes with
  | [] => (.ok [], [])
  | s :: rest =>
    let a := sizeAllM filters s debug
    match a.1 with
    | .error e => (.error e, a.2)
    | .ok b =>
      let trB := if debug then
          [if b then DbgMsg.sizeMatchesAll model s else DbgMsg.sizeNotMatchesAll model s]
        else []
      let restR := matchedSizesLoop filters rest model debug
      match restR.1 with
      | .error e => (.error e, a.2 ++ trB ++ restR.2)
      | .ok l => (.ok (if b then s :: l else l), a.2 ++ trB ++ restR.2)

/-- The name check of the filter loop (ollama-models.py:635-637). -/
def name_match_of (args : Args) (r : ModelRecord) : Bool :=
  if truthyS args.name then
    containsSub (lowerChars r.model.data) (lowerChars (args.name.getD "").data)
  else true

/-- The capability check (ollama-models.py:640-646), guarded by the name
check as in the source. -/
def capability_match_of (args : Args) (r : ModelRecord) (name_match : Bool) : Bool :=
  if truthyS args.capability ∧ name_match then
    r.capabilities.any fun cap =>
      containsSub (lowerChars cap.data) (lowerChars (args.capability.getD "").data)
  else true

/-- The per-record popularity check (ollama-models.py:651-654): only run for
non-`top` filters, guarded by the earlier checks. -/
def popularity_res_of (args : Args) (r : ModelRecord)
    (name_match capability_match : Bool) : Except PyErr Bool :=
  if truthyS args.popularity ∧ name_match ∧ capability_match then
    if ¬ "top".data.isPrefixOf (args.popularity.getD "").data then
      popularity_matches_filter (r.pull_count.getD "0") (args.popularity.getD "")
    else .ok true
  else .ok true

/-- The update-time check (ollama-models.py:657-662), guarded by the earlier
checks; a record without the `updated` key passes. -/
def update_match_of (args : Args) (now : DateTime) (r : ModelRecord)
    (name_match capability_match popularity_match : Bool) : Bool :=
  if truthyS args.updated ∧ name_match ∧ capability_match ∧ popularity_match then
    match r.updated with
    | some u => (date_matches_filter u (args.updated.getD "") now args.debug).1
    | none => true
  else true

/-- The debug messages printed by the update-time check. -/
def update_trace_of (args : Args) (now : DateTime) (r : ModelRecord)
    (name_match capability_match popularity_match : Bool) : List DbgMsg :=
  if truthyS args.updated ∧ name_match ∧ capability_match ∧ popularity_match then
    match r.updated with
    | some u => (date_matches_filter u (args.updated.getD "") now args.debug).2
    | none => if args.debug then [.noUpdatedField r.model] else []
  else []

/-- Per-record body of the filter loop (ollama-models.py:629-690): `--all`
keeps everything; otherwise the name, capability, popularity (non-top) and
update checks run in sequence (each guarded by the previous ones), and a
record with a size filter present is kept only when at least one size tag
matched, carrying `matched_sizes`. -/
def processRecord (args : Args) (now : DateTime) (r : ModelRecord) :
    Except PyErr (Option MatchedRecord) × List DbgMsg :=
  if args.all then (.ok (some ⟨r, none⟩), [])
  else
    let name_match := name_match_of args r
    let capability_match := capability_match_of args r name_match
    match popularity_res_of args r name_match capability_match with
    | .error e => (.error e, [])
    | .ok popularity_match =>
      let update_match :=
        update_match_of args now r name_match capability_match popularity_match
      let updTrace :=
        update_trace_of args now r name_match capability_match popularity_match
      if name_match ∧ capability_match ∧ popularity_match ∧ update_match then
        if truthyL args.size then
          let ms := matchedSizesLoop (args.size.getD []) r.sizes r.model args.debug
          match ms.1 with
          | .error e => (.error e, updTrace ++ ms.2)
          | .ok matched =>
            if matched ≠ [] then (.ok (some ⟨r, some matched⟩), updTrace ++ ms.2)
            else (.ok none, updTrace ++ ms.2)
        else (.ok (some ⟨r, none⟩), updTrace)
      else (.ok none, updTrace)

/-- The filter loop over the whole catalog (ollama-models.py:622-690); an
exception in a predicate aborts the loop (it is not caught in `main`). -/
def filterRecords (args : Args) (now : DateTime) :
    List ModelRecord → Except PyErr (List MatchedRecord) × List DbgMsg
  | [] => (.ok [], [])
  | r :: rest =>
    let p := processRecord args now r
    match p.1 with
    | .error e => (.error e, p.2)
    | .ok o =>
      let restR := filterRecords args now rest
      match restR.1 with
      | .error e => (.error e, p.2 ++ restR.2)
      | .ok l => (.ok (match o with | some m => m :: l | none => l), p.2 ++ restR.2)

/-! ## Sort order resolution and sorting -/

/-- The sort key/direction selected by `determine_sort_order`. -/
inductive SortChoice
  | byPopularity
  | bySize
  | byUpdated
  | byCapability (capability : List Char)
  | byName (name_pattern : List Char)
  | defaultOrder
  deriving Repr, DecidableEq

/-- Scan of the reversed flag order (ollama-models.py:397-427): the first
dimension that was supplied with a truthy value wins. -/
def resolveSort (args : Args) : List String → SortChoice
  | [] => .defaultOrder
  | a :: rest =>
    if a = "popularity" ∧ truthyS args.popularity then .byPopularity
    else if a = "size" ∧ truthyL args.size then .bySize
    else if a = "updated" ∧ truthyS args.updated then .byUpdated
    else if a = "capability" ∧ truthyS args.capability then
      .byCapability (lowerChars (args.capability.getD "").data)
    else if a = "name" ∧ truthyS args.name then
      .byName (lowerChars (args.name.getD "").data)
    else resolveSort args rest

/-- `determine_sort_order` (ollama-models.py:382): walk the flag occurrence
order backwards; default is ascending by lowercased model id. -/
def determine_sort_order (arg_order : List String) (args : Args) : SortChoice :=
  resolveSort args arg_order.reverse

/-- The `reverse` flag returned next to each sort key function. -/
def reverseFlag : SortChoice → Bool
  | .byPopularity => true
  | .bySize => false
  | .byUpdated => true
  | .byCapability _ => true
  | .byName _ => false
  | .defaultOrder => false

/-- Values of the sort key lambdas: a float, a timestamp, a
(bool, string) pair, or a string. -/
inductive SKey
  | q (v : PyFloat)
  | dt (t : DateTime)
  | bs (b : Bool) (s : List Char)
  | str (s : List Char)
  deriving Repr, DecidableEq

/-- Python string `≤`: lexicographic on code points. -/
def lexLeB : List Char → List Char → Bool
  | [], _ => true
  | _ :: _, [] => false
  | a :: as, b :: bs => if a = b then lexLeB as bs else decide (a < b)

/-- Python comparison of two key values of the same shape (`False < True`
for booleans, tuples lexicographically). -/
def SKey.leB : SKey → SKey → Bool
  | .q a, .q b => a.leB b
  | .dt a, .dt b => a.leB b
  | .bs b1 s1, .bs b2 s2 => if b1 = b2 then lexLeB s1 s2 else decide (b1 = false)
  | .str a, .str b => lexLeB a b
  | _, _ => false

/-- The epoch floor used by the `updated` sort key. -/
def epochDT : DateTime := ⟨1970, 1, 1, 0, 0, 0⟩

/-- The sort key lambdas of `determine_sort_order` (ollama-models.py:401,
406, 411, 417, 424) and the default key (394), evaluated on one record;
`byPopularity` and `byUpdated` can raise on unparseable field values. -/
def computeKey (c : SortChoice) (m : MatchedRecord) : Except PyErr SKey :=
  match c with
  | .byPopularity =>
    match parse_pull_count (m.record.pull_count.getD "0") with
    | .error e => .error e
    | .ok v => .ok (.q v)
  | .bySize =>
    let vals := m.record.sizes.filterMap parse_size
    let s := vals.foldl PyFloat.add (PyFloat.ofNat 0)
    .ok (.q (s.divNat (max 1 vals.length)))
  | .byUpdated =>
    match m.record.updated with
    | some u =>
      if u ≠ "" then
        match parseAbsolute u with
        | some d => .ok (.dt d)
        | none => .error .valueError
      else .ok (.dt epochDT)
    | none => .ok (.dt epochDT)
  | .byCapability cap =>
    .ok (.bs (m.record.capabilities.any fun c2 => containsSub (lowerChars c2.data) cap)
      (lowerChars m.record.model.data))
  | .byName pat =>
    .ok (.bs (!(containsSub (lowerChars m.record.model.data) pat))
      (lowerChars m.record.model.data))
  | .defaultOrder => .ok (.str (lowerChars m.record.model.data))

/-- CPython's `list.sort` computes all keys up front; a raising key aborts
before any reordering. -/
def computeKeys (c : SortChoice) :
    List MatchedRecord → Except PyErr (List (SKey × MatchedRecord))
  | [] => .ok []
  | m :: rest =>
    match computeKey c m with
    | .error e => .error e
    | .ok k =>
      match computeKeys c rest with
      | .error e => .error e
      | .ok ks => .ok ((k, m) :: ks)

/-- The comparison used for the stable sort: ascending on keys, or
descending when `rev` is set (Python's `reverse=True` keeps equal keys in
original order, which is exactly a stable sort under the flipped
comparison). -/
def pairLeB (rev : Bool) (p q : SKey × MatchedRecord) : Bool :=
  if rev then SKey.leB q.1 p.1 else SKey.leB p.1 q.1

/-- `matches.sort(key=…, reverse=…)`: stable sort on precomputed keys. -/
def sortMatches (c : SortChoice) (l : List MatchedRecord) :
    Except PyErr (List MatchedRecord) :=
  match computeKeys c l with
  | .error e => .error e
  | .ok ks =>
    .ok ((List.insertionSort (fun p q => pairLeB (reverseFlag c) p q = true) ks).map
      Prod.snd)

/-- Python `l[:n]` for an `int` bound (negative bounds drop from the end). -/
def pyTakeInt (n : ℤ) (l : List α) : List α :=
  if 0 ≤ n then l.take n.toNat else l.take (l.length - (-n).toNat)

/-- The top-N truncation step (ollama-models.py:692-702): parse the number
after `top`, sort the survivors by pull count descending, keep the first
`n`; a `ValueError` (bad number, or an unparseable `pull_count` inside the
sort key) prints an error and exits with status 1 (modelled as `none`). -/
def topnStep (args : Args) (matchesL : List MatchedRecord) :
    Option (List MatchedRecord) :=
  if truthyS args.popularity ∧ "top".data.isPrefixOf (args.popularity.getD "").data then
    match pyInt (String.mk ((args.popularity.getD "").data.drop 3)) with
    | .error _ => none
    | .ok n =>
      match sortMatches .byPopularity matchesL with
      | .error _ => none
      | .ok sorted => some (pyTakeInt n sorted)
  else some matchesL

/-! ## Output -/

/-- `str.ljust`. -/
def ljust (s : String) (w : ℕ) : String :=
  s ++ String.mk (List.replicate (w - s.length) ' ')

/-- Cell truncation of `format_table`: over-wide cells are cut to width − 1
characters plus an ellipsis. -/
def truncCell (s : String) (w : ℕ) : String :=
  if s.length > w - 1 then String.mk (s.data.take (w - 1)) ++ "…" else s

def tableWidths : List ℕ := [25, 29, 8, 18, 17]

def tableHeaders : List String := ["Model", "Size", "Pop.", "Update", "Capabilities"]

/-- `format_table` (ollama-models.py:433): fixed-width tabular rendering;
with `sizes_only` each matched size becomes its own `id:size` row. -/
def format_table (models : List MatchedRecord) (sizes_only : Bool) : String :=
  let rows : List (List String) :=
    models.flatMap fun model =>
      let name := model.record.model
      let sizes : List String :=
        if sizes_only ∧ model.matched_sizes.isSome then model.matched_sizes.getD []
        else if sizes_only then model.record.sizes
        else if model.record.sizes ≠ [] then [String.intercalate ", " model.record.sizes]
        else [""]
      sizes.map fun size =>
        let model_id := if size ≠ "" ∧ sizes_only then name ++ ":" ++ size else name
        let popularity := model.record.pull_count.getD ""
        let update_time :=
          match model.record.updated_relative with
          | some ur => ur
          | none => model.record.updated.getD ""
        let capabilities := String.intercalate ", " model.record.capabilities
        [model_id, if sizes_only then size else sizes.headD "", popularity,
          update_time, capabilities]
  let header_row :=
    (tableHeaders.zip tableWidths).foldl (fun acc hw => acc ++ ljust hw.1 hw.2 ++ " | ") ""
  let separator :=
    tableWidths.foldl (fun acc w => acc ++ String.mk (List.replicate w '-') ++ "-+-") ""
  let dataRows := rows.map fun row =>
    (row.zip tableWidths).foldl (fun acc cw => acc ++ ljust (truncCell cw.1 cw.2) cw.2 ++ " | ") ""
  String.intercalate "\n" (header_row :: separator :: dataRows)

/-- The flat output (ollama-models.py:725-742): one `id:size` line per
variant, using `matched_sizes` when a size filter was active, and the bare
id for a record without sizes. -/
def flatLines (args : Args) (ms : List MatchedRecord) : List String :=
  ms.flatMap fun m =>
    if m.record.sizes = [] then [m.record.model]
    else
      let sizes :=
        if truthyL args.size ∧ m.matched_sizes.isSome then m.matched_sizes.getD []
        else m.record.sizes
      sizes.map fun s => m.record.model ++ ":" ++ s

/-- Result of one query: the ordered surviving records, the primary-stream
lines, and the exit status. -/
structure QueryResult where
  results : List MatchedRecord
  stdout : List String
  exitCode : ℕ
  deriving Repr, DecidableEq

/-- Final sort and printing (ollama-models.py:704-742): the resolved sort is
attempted inside `try`, a sorting exception leaves the list as it was; an
empty list exits with status 1, otherwise the flat or tabular output is
printed and the exit status is 0. -/
def finalSortAndPrint (arg_order : List String) (args : Args)
    (matches2 : List MatchedRecord) : QueryResult × List DbgMsg :=
  let sortChoice := determine_sort_order arg_order args
  let sorted : List MatchedRecord :=
    if matches2 ≠ [] then
      match sortMatches sortChoice matches2 with
      | .ok l => l
      | .error _ => matches2
    else matches2
  let sortTrace : List DbgMsg :=
    if matches2 ≠ [] then
      (if args.debug then [DbgMsg.sortingBy (arg_order.getLastD "default")] else []) ++
        (match sortMatches sortChoice matches2 with
          | .ok _ => []
          | .error _ => if args.debug then [.sortingError] else [])
    else []
  if sorted = [] then (⟨[], [], 1⟩, sortTrace)
  else
    let out := if args.long then [format_table sorted (truthyL args.size)]
      else flatLines args sorted
    (⟨sorted, out, 0⟩, sortTrace)

/-- The query engine of `main` (ollama-models.py:618-742), from the
at-least-one-filter check to the printed results.  A `.error` value is an
uncaught `ValueError` escaping a predicate (the process crashes); `none`
paths inside model fatal `sys.exit(1)` outcomes with empty output. -/
def runQuery (arg_order : List String) (args : Args) (catalog : List ModelRecord)
    (now : DateTime) : Except PyErr (QueryResult × List DbgMsg) :=
  if ¬(truthyS args.name ∨ truthyS args.capability ∨ truthyL args.size ∨
      truthyS args.popularity ∨ truthyS args.updated ∨ args.all) then
    .ok (⟨[], [], 1⟩, [])
  else
    let fr := filterRecords args now catalog
    match fr.1 with
    | .error e => .error e
    | .ok matchesL =>
      match topnStep args matchesL with
      | none => .ok (⟨[], [], 1⟩, fr.2)
      | some matches2 =>
        let fin := finalSortAndPrint arg_order args matches2
        .ok (fin.1, fr.2 ++ fin.2)

/-! ## Helper predicates for well-formedness of numeric filter inputs -/

/-- Whether an `Except` computation succeeded. -/
def isOkE : Except PyErr α → Bool
  | .ok _ => true
  | .error _ => false

/-- The size-filter strings whose threshold part `float()` accepts. -/
def sizeFilterOk (f : String) : Bool :=
  if f = "" then true
  else
    match f.data with
    | '+' :: rest => isOkE (pyFloatOfChars rest)
    | '-' :: rest => isOkE (pyFloatOfChars rest)
    | other => isOkE (pyFloatOfChars other)

/-- The popularity-filter strings whose threshold part cannot raise (the
`=`-form never raises: its `ValueError` is caught). -/
def popFilterOk (f : String) : Bool :=
  if f = "" then true
  else if "top".data.isPrefixOf f.data then true
  else
    match f.data with
    | '+' :: rest => isOkE (parsePullChars rest)
    | '-' :: rest => isOkE (parsePullChars rest)
    | _ => true

lemma ne_empty_of_data_cons {f : String} {c : Char} {r : List Char}
    (h : f.data = c :: r) : f ≠ "" := by
  intro hf
  rw [hf] at h
  simp at h

/-- An ASCII letter is not an ASCII digit. -/
lemma isDigit_eq_false_of_isAlpha {c : Char} (h : c.isAlpha = true) :
    c.isDigit = false := by
  simp only [Char.isAlpha, Char.isUpper, Char.isLower, Bool.or_eq_true, Bool.and_eq_true,
    ge_iff_le, decide_eq_true_eq] at h
  cases hd : c.isDigit
  · rfl
  · exfalso
    simp only [Char.isDigit, Bool.and_eq_true, ge_iff_le, decide_eq_true_eq] at hd
    rcases h with ⟨h1, _⟩ | ⟨h1, _⟩
    · exact absurd (UInt32.le_trans h1 hd.2) (by decide)
    · exact absurd (UInt32.le_trans h1 hd.2) (by decide)

/-! ## Claim C5: parse_size semantics -/

/-- C5, counterexample to the claim as stated: a size string with a leading
number but an *absent* unit is rejected by the regex (`[a-zA-Z]+` needs at
least one letter), not passed through unchanged. -/
theorem counterexample_c5 : parse_size "7" = none := by decide

/-- C5 (amended): `parse_size` extracts a leading decimal number and a
letter unit suffix; `b` leaves the number unchanged (`7B` is 7.0), `m`
divides by 1000 (`500m` is 0.5), `k` divides by 1,000,000, and any other
letter unit passes the number through unchanged; when no leading number
matches, or when no unit letter follows the number, it returns the failure
value `none`, which makes the tag non-matching under any nonempty size
filter. -/
theorem claim_c5 :
    ((parse_size "7B").map PyFloat.toRat = some 7) ∧
    ((parse_size "500m").map PyFloat.toRat = some (1/2)) ∧
    ((parse_size "2k").map PyFloat.toRat = some (1/500000)) ∧
    (∀ (ds u : List Char), ds ≠ [] → (∀ c ∈ ds, c.isDigit = true) → u ≠ [] →
      (∀ c ∈ u, c.isAlpha = true) → lowerChars u ≠ ['b'] → lowerChars u ≠ ['m'] →
      lowerChars u ≠ ['k'] →
      parse_size (String.mk (ds ++ u)) = some (pyOfDecimal ds [])) ∧
    (∀ s, parse_size s = none → ∀ f d, f ≠ "" →
      (size_matches_filter s f d).1 = .ok false) := by
  refine ⟨?_, ?_, ?_, ?_, ?_⟩
  · have h : parse_size "7B" = some ⟨7, 1⟩ := by decide
    rw [h]; norm_num [PyFloat.toRat]
  · have h : parse_size "500m" = some ⟨500, 1000⟩ := by decide
    rw [h]; norm_num [PyFloat.toRat]
  · have h : parse_size "2k" = some ⟨2, 1000000⟩ := by decide
    rw [h]; norm_num [PyFloat.toRat]
  · intro ds u hds hdig hu halpha hb hm hk
    obtain ⟨c, cr, rfl⟩ : ∃ c cr, u = c :: cr := by
      cases u with
      | nil => exact absurd rfl hu
      | cons c cr => exact ⟨c, cr, rfl⟩
    have hcalpha : c.isAlpha = true := halpha c (List.mem_cons_self c cr)
    have hcdig : c.isDigit = false := isDigit_eq_false_of_isAlpha hcalpha
    have h1 : (ds ++ c :: cr).takeWhile Char.isDigit = ds := by
      rw [List.takeWhile_append_of_pos hdig, List.takeWhile_cons, hcdig]
      simp
    have hcdot : c ≠ '.' := by
      intro h; rw [h] at hcalpha; simp [Char.isAlpha, Char.isUpper, Char.isLower] at hcalpha
    have h3 : (c :: cr).takeWhile Char.isAlpha = c :: cr := by
      have h4 : ((c :: cr) ++ ([] : List Char)).takeWhile Char.isAlpha =
          (c :: cr) ++ ([] : List Char).takeWhile Char.isAlpha :=
        List.takeWhile_append_of_pos halpha
      simpa using h4
    simp only [parse_size, String.data]
    rw [h1]
    simp only [if_neg hds, h1, List.length_append]
    rw [List.drop_left]
    have hmatch :
        (match c :: cr with
          | '.' :: r => (r.takeWhile Char.isDigit, r.dropWhile Char.isDigit)
          | x => (([] : List Char), c :: cr)) = (([] : List Char), c :: cr) := by
      split
      next heq => exact absurd (List.head_eq_of_cons_eq heq) hcdot
      next => rfl
    rw [hmatch]
    simp only [h3, if_neg hu, if_neg hb, if_neg hm, if_neg hk]
  · intro s hs f d hf
    simp only [size_matches_filter, if_neg hf, hs]

/-- C5 witness: the general conjuncts of `claim_c5` applied at `3x` (an
unrecognised unit passes through) and at an unparseable tag under the
filter `+4`. -/
theorem claim_c5_witness :
    parse_size (String.mk (['3'] ++ ['x'])) = some (pyOfDecimal ['3'] []) ∧
    (size_matches_filter "zzz" "+4" false).1 = .ok false :=
  ⟨claim_c5.2.2.2.1 ['3'] ['x'] (by decide) (by decide) (by decide) (by decide)
      (by decide) (by decide) (by decide),
    claim_c5.2.2.2.2 "zzz" (by decide) "+4" false (by decide)⟩

/-! ## Claims C6 and C7: error behaviour of the predicates -/

/-- C6, counterexample to the claim as stated: in the `≥`-form an
unparseable threshold value (numeric part `..`) raises `ValueError` out of
the predicate instead of making it return false. -/
theorem counterexample_c6 :
    popularity_matches_filter "5" "+.." = .error .valueError := by decide

/-- C6 (amended): the unparseable-threshold-means-false behaviour belongs
to the `=`-form (no prefix) only, where the `ValueError` from the threshold
parse is caught and turned into `False`; in the `≥`/`≤` forms an
unparseable threshold raises and the exception propagates out of the
predicate. -/
theorem claim_c6 :
    (∀ pc f n c cr e, parse_pull_count pc = .ok n → f.data = c :: cr →
      "top".data.isPrefixOf f.data = false → c ≠ '+' → c ≠ '-' →
      parsePullChars f.data = .error e →
      popularity_matches_filter pc f = .ok false) ∧
    (∀ pc f n cr e, parse_pull_count pc = .ok n → f.data = '+' :: cr →
      parsePullChars cr = .error e →
      popularity_matches_filter pc f = .error e) ∧
    (∀ pc f n cr e, parse_pull_count pc = .ok n → f.data = '-' :: cr →
      parsePullChars cr = .error e →
      popularity_matches_filter pc f = .error e) := by
  refine ⟨?_, ?_, ?_⟩
  · intro pc f n c cr e hpc hd htop hplus hminus herr
    rw [hd] at herr htop
    simp only [popularity_matches_filter, if_neg (ne_empty_of_data_cons hd), hpc, hd]
    simp only [htop, Bool.false_eq_true, if_false]
    split
    next heq => exact absurd (List.head_eq_of_cons_eq heq) hplus
    next heq => exact absurd (List.head_eq_of_cons_eq heq) hminus
    next => rw [herr]
  · intro pc f n cr e hpc hd herr
    have htop : "top".data.isPrefixOf ('+' :: cr) = false := rfl
    simp only [popularity_matches_filter, if_neg (ne_empty_of_data_cons hd), hpc, hd]
    simp only [htop, Bool.false_eq_true, if_false]
    rw [herr]
  · intro pc f n cr e hpc hd herr
    have htop : "top".data.isPrefixOf ('-' :: cr) = false := rfl
    simp only [popularity_matches_filter, if_neg (ne_empty_of_data_cons hd), hpc, hd]
    simp only [htop, Bool.false_eq_true, if_false]
    rw [herr]

/-- C6 witness: `claim_c6` applied at the `=`-form threshold `..` (which
yields false) and at the `≥`-form threshold `+..` (which raises). -/
theorem claim_c6_witness :
    popularity_matches_filter "5" ".." = .ok false ∧
    popularity_matches_filter "7" "+.." = .error .valueError :=
  ⟨claim_c6.1 "5" ".." ⟨5, 1⟩ '.' ['.'] .valueError (by decide) rfl (by decide)
      (by decide) (by decide) (by decide),
    claim_c6.2.1 "7" "+.." ⟨7, 1⟩ "..".data .valueError (by decide) rfl (by decide)⟩

/-- C7, counterexample to the claim as stated: the size predicate is not
total — a malformed numeric threshold makes `float()` raise `ValueError`,
which escapes the predicate. -/
theorem counterexample_c7 :
    (size_matches_filter "7b" "+x" false).1 = .error .valueError := by decide

/-- C7 (amended): the size and popularity predicates return a boolean
whenever the numeric strings they parse are well-formed (`sizeFilterOk`,
`popFilterOk`, and a parseable record pull count); for malformed numeric
input the `ValueError` escapes.  The name, capability and date predicates
are total by construction. -/
theorem claim_c7 :
    (∀ s f d, sizeFilterOk f = true → ∃ b, (size_matches_filter s f d).1 = .ok b) ∧
    (∀ pc f, isOkE (parse_pull_count pc) = true → popFilterOk f = true →
      ∃ b, popularity_matches_filter pc f = .ok b) := by
  constructor
  · intro s f d h
    by_cases hf : f = ""
    · exact ⟨true, by simp [size_matches_filter, hf]⟩
    · simp only [sizeFilterOk, if_neg hf] at h
      simp only [size_matches_filter, if_neg hf]
      cases hp : parse_size s
      · exact ⟨false, by simp⟩
      · split at h <;> rename_i heq <;> simp only [heq]
        · cases hq : pyFloatOfChars _
          · rw [hq] at h; simp [isOkE] at h
          · exact ⟨_, rfl⟩
        · cases hq : pyFloatOfChars _
          · rw [hq] at h; simp [isOkE] at h
          · exact ⟨_, rfl⟩
        · cases hq : pyFloatOfChars f.data
          · rw [hq] at h; simp [isOkE] at h
          · exact ⟨_, rfl⟩
  · intro pc f h hf
    by_cases hf0 : f = ""
    · exact ⟨true, by simp [popularity_matches_filter, hf0]⟩
    · cases hpc : parse_pull_count pc
      · rw [hpc] at h; simp [isOkE] at h
      · simp only [popularity_matches_filter, if_neg hf0, hpc]
        by_cases htop : "top".data.isPrefixOf f.data = true
        · exact ⟨true, by simp [htop]⟩
        · simp only [popFilterOk, if_neg hf0, if_neg htop] at hf
          simp only [Bool.not_eq_true] at htop
          simp only [htop, Bool.false_eq_true, if_false]
          split at hf
          next cs rest heq =>
            cases hq : parsePullChars rest
            · rw [hq] at hf; simp [isOkE] at hf
            · exact ⟨_, rfl⟩
          next cs rest heq =>
            cases hq : parsePullChars rest
            · rw [hq] at hf; simp [isOkE] at hf
            · exact ⟨_, rfl⟩
          next cs h1 h2 =>
            cases hq : parsePullChars f.data
            · exact ⟨false, rfl⟩
            · exact ⟨_, rfl⟩

/-- C7 witness: `claim_c7` applied at well-formed inputs. -/
theorem claim_c7_witness :
    (∃ b, (size_matches_filter "7b" "+4" false).1 = .ok b) ∧
    (∃ b, popularity_matches_filter "3.3M" "+1M" = .ok b) :=
  ⟨claim_c7.1 "7b" "+4" false (by decide),
    claim_c7.2 "3.3M" "+1M" (by decide) (by decide)⟩

/-! ## Claim C2: sort order resolution -/

/-- The condition under which one scan step of `determine_sort_order`
accepts dimension `a`: it is a recognised dimension name and its value is
truthy. -/
def specifiedDim (a : String) (args : Args) : Bool :=
  decide ((a = "popularity" ∧ truthyS args.popularity) ∨ (a = "size" ∧ truthyL args.size) ∨
    (a = "updated" ∧ truthyS args.updated) ∨ (a = "capability" ∧ truthyS args.capability) ∨
    (a = "name" ∧ truthyS args.name))

/-- The sort choice a recognised dimension resolves to. -/
def choiceOf (a : String) (args : Args) : SortChoice :=
  if a = "popularity" then .byPopularity
  else if a = "size" then .bySize
  else if a = "updated" then .byUpdated
  else if a = "capability" then .byCapability (lowerChars (args.capability.getD "").data)
  else if a = "name" then .byName (lowerChars (args.name.getD "").data)
  else .defaultOrder

lemma resolveSort_skip (args : Args) (l : List String)
    (h : ∀ x ∈ l, specifiedDim x args = false) (rest : List String) :
    resolveSort args (l ++ rest) = resolveSort args rest := by
  induction l with
  | nil => rfl
  | cons a t ih =>
    have ha := h a (List.mem_cons_self a t)
    simp only [specifiedDim, decide_eq_false_iff_not, not_or] at ha
    obtain ⟨h1, h2, h3, h4, h5⟩ := ha
    simp only [List.cons_append, resolveSort, if_neg h1, if_neg h2, if_neg h3, if_neg h4,
      if_neg h5]
    exact ih fun x hx => h x (List.mem_cons_of_mem a hx)

lemma resolveSort_hit (args : Args) (d : String) (l : List String)
    (h : specifiedDim d args = true) :
    resolveSort args (d :: l) = choiceOf d args := by
  simp only [specifiedDim, decide_eq_true_eq] at h
  rcases h with ⟨rfl, ht⟩ | ⟨rfl, ht⟩ | ⟨rfl, ht⟩ | ⟨rfl, ht⟩ | ⟨rfl, ht⟩ <;>
    simp [resolveSort, choiceOf, ht]

/-- C2: the final sort key/direction comes from scanning the flag occurrence
order from the end and taking the first dimension supplied with a truthy
value; with flags `[name, size, popularity]` the result is the
popularity key (pull count, descending) regardless of the other argument
values; with no recognised dimension supplied the default is the ascending
lowercased-id key. -/
theorem claim_c2 :
    (∀ args l1 d l2, specifiedDim d args = true →
      (∀ x ∈ l2, specifiedDim x args = false) →
      determine_sort_order (l1 ++ d :: l2) args = choiceOf d args) ∧
    (∀ args l, (∀ x ∈ l, specifiedDim x args = false) →
      determine_sort_order l args = .defaultOrder) ∧
    (∀ m, computeKey .defaultOrder m = .ok (.str (lowerChars m.record.model.data))) ∧
    (reverseFlag .defaultOrder = false) ∧
    (∀ args, truthyS args.popularity = true →
      determine_sort_order ["name", "size", "popularity"] args = .byPopularity) ∧
    (∀ m v, parse_pull_count (m.record.pull_count.getD "0") = .ok v →
      computeKey .byPopularity m = .ok (.q v)) ∧
    (reverseFlag .byPopularity = true) := by
  refine ⟨?_, ?_, fun m => rfl, rfl, ?_, ?_, rfl⟩
  · intro args l1 d l2 hd hl2
    unfold determine_sort_order
    rw [List.reverse_append, List.reverse_cons, List.append_assoc, List.singleton_append]
    rw [resolveSort_skip args l2.reverse (fun x hx => hl2 x (List.mem_reverse.mp hx))]
    exact resolveSort_hit args d l1.reverse hd
  · intro args l hl
    unfold determine_sort_order
    have := resolveSort_skip args l.reverse (fun x hx => hl x (List.mem_reverse.mp hx)) []
    simpa using this
  · intro args h
    simp [determine_sort_order, resolveSort, h]
  · intro m v hv
    simp [computeKey, hv]

/-- C2 witness: `claim_c2` applied at a concrete invocation
`[name, size, popularity]` with nonempty values, and at an unrecognised
flag list. -/
theorem claim_c2_witness :
    determine_sort_order (["name"] ++ "size" :: ["popularity"])
      { name := some "llama", size := some ["+4"] } =
      choiceOf "size" { name := some "llama", size := some ["+4"] } ∧
    determine_sort_order ["debug", "long"] { all := true } = .defaultOrder ∧
    determine_sort_order ["name", "size", "popularity"]
      { name := some "x", size := some ["1"], popularity := some "+5" } = .byPopularity := by
  refine ⟨?_, ?_, ?_⟩
  · exact claim_c2.1 _ ["name"] "size" ["popularity"] (by decide) (by decide)
  · exact claim_c2.2.1 _ ["debug", "long"] (by decide)
  · exact claim_c2.2.2.2.2.1 _ (by decide)

/-! ## Claim C4: update-recency filter -/

/-- The reference expression a date filter parses: the part after the first
colon for the five recognised prefixes, the whole filter for the bare
form. -/
def refExprOf (fd : List Char) : List Char :=
  if "since:".data.isPrefixOf fd ∨ "after:".data.isPrefixOf fd then splitColonTail fd
  else if "before:".data.isPrefixOf fd ∨ "until:".data.isPrefixOf fd then splitColonTail fd
  else if "on:".data.isPrefixOf fd then splitColonTail fd
  else fd

/-- The update-recency check of the filter loop (ollama-models.py:656-662),
as an independent predicate: a record without the `updated` key always
matches. -/
def updDim (args : Args) (now : DateTime) (r : ModelRecord) : Bool :=
  if truthyS args.updated then
    match r.updated with
    | some u => (date_matches_filter u (args.updated.getD "") now args.debug).1
    | none => true
  else true

lemma parseAbsolute_empty : parseAbsolute "" = none := rfl

lemma ne_empty_of_parseAbsolute {u : String} {md : DateTime}
    (h : parseAbsolute u = some md) : u ≠ "" := by
  intro hu
  rw [hu, parseAbsolute_empty] at h
  cases h

lemma ne_empty_of_cons_prefix {p : Char} {ps : List Char} {f : String}
    (h : (p :: ps).isPrefixOf f.data = true) : f ≠ "" := by
  intro hf
  rw [hf] at h
  simp [List.isPrefixOf] at h

/-- C4: the update-recency predicate fails open — a record with no
`updated` field, an unparseable record timestamp, or an unparseable
reference expression all produce a match — and otherwise
`since:`/`after:`/bare compare the record timestamp `≥` the reference,
`before:`/`until:` compare `≤`, and `on:` compares the calendar day
ignoring the time of day. -/
theorem claim_c4 :
    (∀ args now r, r.updated = none → updDim args now r = true) ∧
    (∀ u f now d, parseAbsolute u = none → (date_matches_filter u f now d).1 = true) ∧
    (∀ u f now d, (parse_date_string (String.mk (refExprOf f.data)) now d).1 = none →
      (date_matches_filter u f now d).1 = true) ∧
    (∀ u f now d md fd, parseAbsolute u = some md →
      ("since:".data.isPrefixOf f.data = true ∨ "after:".data.isPrefixOf f.data = true) →
      (parse_date_string (String.mk (splitColonTail f.data)) now d).1 = some fd →
      (date_matches_filter u f now d).1 = fd.leB md) ∧
    (∀ u f now d md fd, parseAbsolute u = some md →
      ("before:".data.isPrefixOf f.data = true ∨ "until:".data.isPrefixOf f.data = true) →
      ¬("since:".data.isPrefixOf f.data = true ∨ "after:".data.isPrefixOf f.data = true) →
      (parse_date_string (String.mk (splitColonTail f.data)) now d).1 = some fd →
      (date_matches_filter u f now d).1 = md.leB fd) ∧
    (∀ u f now d md fd, parseAbsolute u = some md →
      "on:".data.isPrefixOf f.data = true →
      ¬("since:".data.isPrefixOf f.data = true ∨ "after:".data.isPrefixOf f.data = true) →
      ¬("before:".data.isPrefixOf f.data = true ∨ "until:".data.isPrefixOf f.data = true) →
      (parse_date_string (String.mk (splitColonTail f.data)) now d).1 = some fd →
      (date_matches_filter u f now d).1 =
        decide (md.year = fd.year ∧ md.month = fd.month ∧ md.day = fd.day)) ∧
    (∀ u f now d md fd, parseAbsolute u = some md → f ≠ "" →
      ¬("since:".data.isPrefixOf f.data = true ∨ "after:".data.isPrefixOf f.data = true) →
      ¬("before:".data.isPrefixOf f.data = true ∨ "until:".data.isPrefixOf f.data = true) →
      ¬"on:".data.isPrefixOf f.data = true →
      (parse_date_string f now d).1 = some fd →
      (date_matches_filter u f now d).1 = fd.leB md) ∧
    ((date_matches_filter "2023-06-01 14:00:00" "on:2023-06-01" epochDT false).1 = true) ∧
    ((date_matches_filter "2023-06-02 00:00:01" "on:2023-06-01" epochDT false).1 = false) := by
  refine ⟨?_, ?_, ?_, ?_, ?_, ?_, ?_, by decide, by decide⟩
  · intro args now r h
    unfold updDim
    split
    · rw [h]
    · rfl
  · intro u f now d h
    by_cases hfu : f = "" ∨ u = ""
    · simp [date_matches_filter, hfu]
    · simp [date_matches_filter, hfu, h]
  · intro u f now d h
    by_cases hfu : f = "" ∨ u = ""
    · simp [date_matches_filter, hfu]
    · cases hu : parseAbsolute u with
      | none => simp [date_matches_filter, hfu, hu]
      | some md =>
        unfold refExprOf at h
        simp only [date_matches_filter, if_neg hfu, hu]
        by_cases h1 : "since:".data.isPrefixOf f.data = true ∨ "after:".data.isPrefixOf f.data = true
        · rw [if_pos h1] at h
          rw [if_pos h1]
          simp [h]
        · rw [if_neg h1] at h
          rw [if_neg h1]
          by_cases h2 : "before:".data.isPrefixOf f.data = true ∨ "until:".data.isPrefixOf f.data = true
          · rw [if_pos h2] at h
            rw [if_pos h2]
            simp [h]
          · rw [if_neg h2] at h
            rw [if_neg h2]
            by_cases h3 : "on:".data.isPrefixOf f.data = true
            · rw [if_pos h3] at h
              rw [if_pos h3]
              simp [h]
            · rw [if_neg h3] at h
              rw [if_neg h3]
              have h2' : (parse_date_string f now d).1 = none := h
              simp [h2']
  · intro u f now d md fd hu hpre hfd
    have hf : f ≠ "" := by
      rcases hpre with h | h
      · exact ne_empty_of_cons_prefix h
      · exact ne_empty_of_cons_prefix h
    have hfu : ¬(f = "" ∨ u = "") := by
      simp [hf, ne_empty_of_parseAbsolute hu]
    simp only [date_matches_filter, if_neg hfu, hu]
    rw [if_pos hpre]
    simp [hfd]
  · intro u f now d md fd hu hpre hnot hfd
    have hf : f ≠ "" := by
      rcases hpre with h | h
      · exact ne_empty_of_cons_prefix h
      · exact ne_empty_of_cons_prefix h
    have hfu : ¬(f = "" ∨ u = "") := by
      simp [hf, ne_empty_of_parseAbsolute hu]
    simp only [date_matches_filter, if_neg hfu, hu]
    rw [if_neg hnot, if_pos hpre]
    simp [hfd]
  · intro u f now d md fd hu hpre hnot1 hnot2 hfd
    have hf : f ≠ "" := ne_empty_of_cons_prefix hpre
    have hfu : ¬(f = "" ∨ u = "") := by
      simp [hf, ne_empty_of_parseAbsolute hu]
    simp only [date_matches_filter, if_neg hfu, hu]
    rw [if_neg hnot1, if_neg hnot2, if_pos hpre]
    simp [hfd]
  · intro u f now d md fd hu hf hnot1 hnot2 hnot3 hfd
    have hfu : ¬(f = "" ∨ u = "") := by
      simp [hf, ne_empty_of_parseAbsolute hu]
    simp only [date_matches_filter, if_neg hfu, hu]
    rw [if_neg hnot1, if_neg hnot2, if_neg hnot3]
    simp [hfd]

/-- C4 witness: `claim_c4` applied at concrete records and filters for each
fail-open case and each comparison direction. -/
theorem claim_c4_witness :
    updDim { updated := some "since:2023-01-01" } epochDT { model := "m" } = true ∧
    (date_matches_filter "garbage" "on:2023-06-01" epochDT false).1 = true ∧
    (date_matches_filter "2023-06-01" "since:gibberish" epochDT false).1 = true ∧
    (date_matches_filter "2023-06-01" "since:2023-01-01" epochDT false).1 =
      DateTime.leB ⟨2023, 1, 1, 0, 0, 0⟩ ⟨2023, 6, 1, 0, 0, 0⟩ ∧
    (date_matches_filter "2023-06-01" "until:2023-01-01" epochDT false).1 =
      DateTime.leB ⟨2023, 6, 1, 0, 0, 0⟩ ⟨2023, 1, 1, 0, 0, 0⟩ ∧
    (date_matches_filter "2023-06-01 14:00:00" "on:2023-06-01" epochDT true).1 =
      decide ((2023 : ℕ) = 2023 ∧ (6 : ℕ) = 6 ∧ (1 : ℕ) = 1) ∧
    (date_matches_filter "2023-06-01" "2023-01-01" epochDT false).1 =
      DateTime.leB ⟨2023, 1, 1, 0, 0, 0⟩ ⟨2023, 6, 1, 0, 0, 0⟩ :=
  ⟨claim_c4.1 _ epochDT _ rfl,
    claim_c4.2.1 "garbage" _ epochDT false (by decide),
    claim_c4.2.2.1 "2023-06-01" "since:gibberish" epochDT false (by decide),
    claim_c4.2.2.2.1 "2023-06-01" "since:2023-01-01" epochDT false
      ⟨2023, 6, 1, 0, 0, 0⟩ ⟨2023, 1, 1, 0, 0, 0⟩ (by decide) (Or.inl (by decide)) (by decide),
    claim_c4.2.2.2.2.1 "2023-06-01" "until:2023-01-01" epochDT false
      ⟨2023, 6, 1, 0, 0, 0⟩ ⟨2023, 1, 1, 0, 0, 0⟩ (by decide) (Or.inr (by decide))
      (by decide) (by decide),
    claim_c4.2.2.2.2.2.1 "2023-06-01 14:00:00" "on:2023-06-01" epochDT true
      ⟨2023, 6, 1, 14, 0, 0⟩ ⟨2023, 6, 1, 0, 0, 0⟩ (by decide) (by decide) (by decide)
      (by decide) (by decide),
    claim_c4.2.2.2.2.2.2.1 "2023-06-01" "2023-01-01" epochDT false
      ⟨2023, 6, 1, 0, 0, 0⟩ ⟨2023, 1, 1, 0, 0, 0⟩ (by decide) (by decide) (by decide)
      (by decide) (by decide) (by decide)⟩

/-! ## Claim C8: the debug flag does not affect values -/

lemma parse_date_string_fst (s : String) (now : DateTime) (d : Bool) :
    (parse_date_string s now d).1 = (parse_date_string s now false).1 := by
  by_cases hs : s = ""
  · simp [parse_date_string, hs]
  · cases hab : parseAbsolute s with
    | some md => simp [parse_date_string, hs, hab]
    | none =>
      cases hrel : relMatch (lowerChars s.data) with
      | some nu => simp [parse_date_string, hs, hab, hrel]
      | none => simp [parse_date_string, hs, hab, hrel]

lemma date_matches_filter_fst (u f : String) (now : DateTime) (d : Bool) :
    (date_matches_filter u f now d).1 = (date_matches_filter u f now false).1 := by
  by_cases hfu : f = "" ∨ u = ""
  · simp [date_matches_filter, hfu]
  · cases hab : parseAbsolute u with
    | none => simp [date_matches_filter, hfu, hab]
    | some md =>
      simp only [date_matches_filter, if_neg hfu, hab]
      have key := parse_date_string_fst (String.mk (splitColonTail f.data)) now d
      have keyb := parse_date_string_fst f now d
      by_cases h1 : "since:".data.isPrefixOf f.data = true ∨ "after:".data.isPrefixOf f.data = true
      · rw [if_pos h1, if_pos h1]
        cases hp : (parse_date_string (String.mk (splitColonTail f.data)) now d).1 <;>
          rw [hp] at key <;> simp [hp, ← key]
      · rw [if_neg h1, if_neg h1]
        by_cases h2 : "before:".data.isPrefixOf f.data = true ∨ "until:".data.isPrefixOf f.data = true
        · rw [if_pos h2, if_pos h2]
          cases hp : (parse_date_string (String.mk (splitColonTail f.data)) now d).1 <;>
            rw [hp] at key <;> simp [hp, ← key]
        · rw [if_neg h2, if_neg h2]
          by_cases h3 : "on:".data.isPrefixOf f.data = true
          · rw [if_pos h3, if_pos h3]
            cases hp : (parse_date_string (String.mk (splitColonTail f.data)) now d).1 <;>
              rw [hp] at key <;> simp [hp, ← key]
          · rw [if_neg h3, if_neg h3]
            cases hp : (parse_date_string f now d).1 <;>
              rw [hp] at keyb <;> simp [hp, ← keyb]

lemma size_matches_filter_fst (s f : String) (d : Bool) :
    (size_matches_filter s f d).1 = (size_matches_filter s f false).1 := by
  by_cases hf : f = ""
  · simp [size_matches_filter, hf]
  · simp only [size_matches_filter, if_neg hf]
    cases hp : parse_size s
    · rfl
    · dsimp only
      split
      next cs rest heq => cases hq : pyFloatOfChars rest <;> rfl
      next cs rest heq => cases hq : pyFloatOfChars rest <;> rfl
      next cs h1 h2 => cases hq : pyFloatOfChars f.data <;> rfl

lemma sizeAllM_fst (filters : List String) (size : String) (d : Bool) :
    (sizeAllM filters size d).1 = (sizeAllM filters size false).1 := by
  induction filters with
  | nil => rfl
  | cons f fs ih =>
    simp only [sizeAllM]
    have key := size_matches_filter_fst size f d
    cases hr : (size_matches_filter size f d).1 <;> rw [hr] at key
    · rw [← key]
    · rw [← key]
      dsimp only
      split <;> simp [ih]

lemma matchedSizesLoop_fst (filters sizes : List String) (model : String) (d : Bool) :
    (matchedSizesLoop filters sizes model d).1 =
    (matchedSizesLoop filters sizes model false).1 := by
  induction sizes with
  | nil => rfl
  | cons sz rest ih =>
    simp only [matchedSizesLoop]
    have key := sizeAllM_fst filters sz d
    cases ha : (sizeAllM filters sz d).1 <;> rw [ha] at key
    · rw [← key]
    · rw [← key]
      have key2 := ih
      cases hm : (matchedSizesLoop filters rest model d).1 <;> rw [hm] at key2
      · rw [← key2]
      · rw [← key2]

lemma fst_ite {α β : Type} {c : Prop} [Decidable c] (a b : α × β) :
    (if c then a else b).1 = if c then a.1 else b.1 := by
  split <;> rfl

lemma fst_matchExcept {ε γ α β : Type} (e : Except ε γ) (f : ε → α × β) (g : γ → α × β) :
    (match e with | .error x => f x | .ok y => g y).1 =
    (match e with | .error x => (f x).1 | .ok y => (g y).1) := by
  cases e <;> rfl

lemma fst_matchOption {γ α β : Type} (o : Option γ) (f : γ → α × β) (z : α × β) :
    (match o with | some x => f x | none => z).1 =
    (match o with | some x => (f x).1 | none => z.1) := by
  cases o <;> rfl

lemma name_match_of_debug (args : Args) (r : ModelRecord) (d : Bool) :
    name_match_of { args with debug := d } r = name_match_of args r := rfl

lemma capability_match_of_debug (args : Args) (r : ModelRecord) (nm : Bool) (d : Bool) :
    capability_match_of { args with debug := d } r nm = capability_match_of args r nm := rfl

lemma popularity_res_of_debug (args : Args) (r : ModelRecord) (nm cm : Bool) (d : Bool) :
    popularity_res_of { args with debug := d } r nm cm = popularity_res_of args r nm cm := rfl

lemma update_match_of_debug (args : Args) (now : DateTime) (r : ModelRecord)
    (nm cm pm : Bool) (d : Bool) :
    update_match_of { args with debug := d } now r nm cm pm =
    update_match_of args now r nm cm pm := by
  unfold update_match_of
  dsimp only
  simp only [date_matches_filter_fst]

lemma processRecord_fst (args : Args) (now : DateTime) (r : ModelRecord) (d : Bool) :
    (processRecord { args with debug := d } now r).1 = (processRecord args now r).1 := by
  unfold processRecord
  dsimp only
  simp only [name_match_of_debug, capability_match_of_debug, popularity_res_of_debug,
    update_match_of_debug, matchedSizesLoop_fst]
  repeat' (first | rfl | split)

lemma filterRecords_fst (args : Args) (now : DateTime) (d : Bool) :
    ∀ l : List ModelRecord,
      (filterRecords { args with debug := d } now l).1 = (filterRecords args now l).1
  | [] => rfl
  | r :: rest => by
    simp only [filterRecords]
    have key := processRecord_fst args now r d
    have key2 := filterRecords_fst args now d rest
    cases hp : (processRecord args now r).1 <;> rw [hp] at key <;> rw [key]
    all_goals
      cases hr : (filterRecords args now rest).1 <;> rw [hr] at key2 <;> rw [key2]

lemma resolveSort_debug (args : Args) (d : Bool) :
    ∀ l : List String, resolveSort { args with debug := d } l = resolveSort args l
  | [] => rfl
  | a :: rest => by
    simp only [resolveSort]
    rw [resolveSort_debug args d rest]

lemma determine_sort_order_debug (ao : List String) (args : Args) (d : Bool) :
    determine_sort_order ao { args with debug := d } = determine_sort_order ao args :=
  resolveSort_debug args d ao.reverse

lemma finalSortAndPrint_fst (ao : List String) (args : Args) (m2 : List MatchedRecord)
    (d : Bool) :
    (finalSortAndPrint ao { args with debug := d } m2).1 =
    (finalSortAndPrint ao args m2).1 := by
  unfold finalSortAndPrint
  rw [determine_sort_order_debug]
  dsimp only
  have hflat : flatLines { args with debug := d } = flatLines args := rfl
  rw [hflat]
  split <;> (first | rfl | (split <;> rfl))

/-- C8: for every query, the value of the result — the matched records,
their `matched_sizes` annotations, the primary-stream output and the exit
status — is the same with the debug flag on or off; only the diagnostic
trace changes. -/
theorem claim_c8 (arg_order : List String) (args : Args) (catalog : List ModelRecord)
    (now : DateTime) (d : Bool) :
    (runQuery arg_order { args with debug := d } catalog now).map Prod.fst =
    (runQuery arg_order args catalog now).map Prod.fst := by
  unfold runQuery
  dsimp only
  split
  · rfl
  · have key := filterRecords_fst args now d catalog
    have htop : topnStep { args with debug := d } = topnStep args := rfl
    cases hf : (filterRecords args now catalog).1 <;> rw [hf] at key <;> rw [key]
    rename_i l
    dsimp only
    rw [htop]
    cases ht : topnStep args l
    · rfl
    · rename_i m2
      have key2 := finalSortAndPrint_fst arg_order args m2 d
      simp only [Except.map]
      rw [key2]

/-! ## Claim C1: the filter pipeline is a pure conjunction -/

/-- The capability dimension evaluated independently of the other checks. -/
def capDim (args : Args) (r : ModelRecord) : Bool :=
  if truthyS args.capability then
    r.capabilities.any fun cap =>
      containsSub (lowerChars cap.data) (lowerChars (args.capability.getD "").data)
  else true

/-- The non-topN popularity dimension evaluated independently. -/
def popDim (args : Args) (r : ModelRecord) : Except PyErr Bool :=
  if truthyS args.popularity ∧ ¬ "top".data.isPrefixOf (args.popularity.getD "").data then
    popularity_matches_filter (r.pull_count.getD "0") (args.popularity.getD "")
  else .ok true

/-- The size dimension evaluated independently: the list of size tags that
pass the whole size-filter intersection (empty when no size filter is
given). -/
def sizeDim (args : Args) (r : ModelRecord) : Except PyErr (List String) :=
  if truthyL args.size then (matchedSizesLoop (args.size.getD []) r.sizes r.model args.debug).1
  else .ok []

lemma capability_match_of_true (args : Args) (r : ModelRecord) :
    capability_match_of args r true = capDim args r := by
  unfold capability_match_of capDim
  by_cases h : truthyS args.capability = true <;> simp [h]

lemma popularity_res_of_true (args : Args) (r : ModelRecord) :
    popularity_res_of args r true true = popDim args r := by
  unfold popularity_res_of popDim
  by_cases h : truthyS args.popularity = true
  · by_cases h2 : "top".data.isPrefixOf (args.popularity.getD "").data = true <;> simp [h, h2]
  · simp [h]

lemma update_match_of_true (args : Args) (now : DateTime) (r : ModelRecord) :
    update_match_of args now r true true true = updDim args now r := by
  unfold update_match_of updDim
  by_cases h : truthyS args.updated = true <;> simp [h]

lemma matchedSizesLoop_filter (filters : List String) (model : String) (d : Bool) :
    ∀ (sizes : List String) (sz : List String),
      (matchedSizesLoop filters sizes model d).1 = .ok sz →
      sz = sizes.filter fun s => decide ((sizeAllM filters s d).1 = .ok true)
  | [], sz => by
    intro h
    simp only [matchedSizesLoop] at h
    simp only [List.filter_nil]
    exact (Except.ok.inj h).symm
  | s :: rest, sz => by
    simp only [matchedSizesLoop]
    cases ha : (sizeAllM filters s d).1 with
    | error e => intro h; exact absurd h (by simp)
    | ok b =>
      cases hm : (matchedSizesLoop filters rest model d).1 with
      | error e => intro h; exact absurd h (by simp)
      | ok l =>
        intro h
        have hsz : (if b = true then s :: l else l) = sz := Except.ok.inj h
        have ihl := matchedSizesLoop_filter filters model d rest l hm
        rw [List.filter_cons]
        cases b with
        | false =>
          simp only [Bool.false_eq_true, if_false] at hsz
          simp only [ha, decide_eq_true_eq]
          rw [if_neg (by simp)]
          rw [← hsz, ihl]
        | true =>
          simp only [if_true] at hsz
          simp only [ha, decide_eq_true_eq]
          rw [if_pos (by simp)]
          rw [← hsz, ihl]

/-- C1: with `--all` unset, a record is kept iff every independently
evaluated dimension matches, with the size dimension requiring at least one
surviving size tag; the survivor carries exactly the ordered list of size
tags passing every size spec as `matched_sizes`; the size filters
`[+4, -28]` on sizes `[3b, 7b, 13b, 70b]` keep exactly `[7b, 13b]`; with
`--all` set every record is kept unmodified with no predicate evaluated and
no debug output. -/
theorem claim_c1 :
    (∀ args now r b3 sz, args.all = false → popDim args r = .ok b3 →
      sizeDim args r = .ok sz →
      (processRecord args now r).1 = .ok (
        if name_match_of args r ∧ capDim args r ∧ b3 ∧ updDim args now r ∧
            (truthyL args.size = true → sz ≠ []) then
          some ⟨r, if truthyL args.size then some sz else none⟩
        else none)) ∧
    (∀ args now r, args.all = true → processRecord args now r = (.ok (some ⟨r, none⟩), [])) ∧
    (∀ filters model d sizes sz, (matchedSizesLoop filters sizes model d).1 = .ok sz →
      sz = sizes.filter fun s => decide ((sizeAllM filters s d).1 = .ok true)) ∧
    ((matchedSizesLoop ["+4", "-28"] ["3b", "7b", "13b", "70b"] "m" false).1 =
      .ok ["7b", "13b"]) := by
  refine ⟨?_, ?_, fun filters model d sizes sz => matchedSizesLoop_filter filters model d sizes sz, by decide⟩
  · intro args now r b3 sz hall hp hs
    unfold processRecord
    simp only [hall, Bool.false_eq_true, if_false]
    cases hnm : name_match_of args r with
    | false =>
      simp [capability_match_of, popularity_res_of, update_match_of, hnm]
    | true =>
      rw [capability_match_of_true]
      cases hcd : capDim args r with
      | false =>
        simp [popularity_res_of, update_match_of, hnm, hcd]
      | true =>
        rw [popularity_res_of_true, hp]
        cases hb3 : b3 with
        | false =>
          simp [update_match_of, hnm, hcd]
        | true =>
          dsimp only
          rw [update_match_of_true]
          cases hud : updDim args now r with
          | false => simp [hnm, hcd, hud]
          | true =>
            simp only [hnm, hcd, hud, and_true, true_and]
            by_cases hsz : truthyL args.size = true
            · rw [if_pos hsz]
              unfold sizeDim at hs
              rw [if_pos hsz] at hs
              simp only [hs]
              by_cases hnil : sz = []
              · simp [hnil, hsz]
              · simp [hnil, hsz]
            · rw [if_neg hsz]
              unfold sizeDim at hs
              rw [if_neg hsz] at hs
              have : sz = [] := (Except.ok.inj hs).symm
              simp [hsz, this]
  · intro args now r h
    simp [processRecord, h]

/-- C1 witness: `claim_c1` applied at the spec's worked example (size
filters `+4`,`-28` over a four-size record) and at a concrete `--all`
query. -/
theorem claim_c1_witness :
    (processRecord { size := some ["+4", "-28"] } epochDT
        ⟨"llama3", [], ["3b", "7b", "13b", "70b"], some "3.3M", none, none⟩).1 =
      .ok (some ⟨⟨"llama3", [], ["3b", "7b", "13b", "70b"], some "3.3M", none, none⟩,
        some ["7b", "13b"]⟩) ∧
    processRecord { all := true } epochDT ⟨"g", [], [], none, none, none⟩ =
      (.ok (some ⟨⟨"g", [], [], none, none, none⟩, none⟩), []) := by
  constructor
  · have h := claim_c1.1 { size := some ["+4", "-28"] } epochDT
      ⟨"llama3", [], ["3b", "7b", "13b", "70b"], some "3.3M", none, none⟩ true
      ["7b", "13b"] rfl (by decide) (by decide)
    rw [h]
    decide
  · exact claim_c1.2.1 { all := true } epochDT ⟨"g", [], [], none, none, none⟩ rfl

/-! ## Claim C9: sorting exceptions are caught -/

/-- C9: when evaluating the resolved sort key raises for some surviving
record, the exception is caught: the result list is exactly the unsorted
survivor list, it is still printed, and the exit status is success. -/
theorem claim_c9 (arg_order : List String) (args : Args) (m2 : List MatchedRecord)
    (e : PyErr) (hm2 : m2 ≠ [])
    (hsort : sortMatches (determine_sort_order arg_order args) m2 = .error e) :
    (finalSortAndPrint arg_order args m2).1 =
      ⟨m2, if args.long then [format_table m2 (truthyL args.size)] else flatLines args m2,
        0⟩ := by
  unfold finalSortAndPrint
  dsimp only
  rw [if_pos hm2, hsort]
  dsimp only
  rw [if_neg hm2]

/-- C9 witness: a survivor whose `updated` string cannot be parsed makes
the `updated` sort key raise; the record is still printed with exit 0. -/
theorem claim_c9_witness :
    (finalSortAndPrint ["updated"] { updated := some "since:2020-01-01" }
        [⟨⟨"m", [], [], none, some "garbage", none⟩, none⟩]).1 =
      ⟨[⟨⟨"m", [], [], none, some "garbage", none⟩, none⟩], ["m"], 0⟩ := by
  have h := claim_c9 ["updated"] { updated := some "since:2020-01-01" }
    [⟨⟨"m", [], [], none, some "garbage", none⟩, none⟩] .valueError
    (by decide) (by decide)
  rw [h]
  decide

/-! ## Claim C10: results are a sub-multiset of the catalog -/

lemma processRecord_record (args : Args) (now : DateTime) (r : ModelRecord)
    (m : MatchedRecord) (h : (processRecord args now r).1 = .ok (some m)) :
    m.record = r := by
  unfold processRecord at h
  by_cases hall : args.all = true
  · rw [if_pos hall] at h
    simp only [Except.ok.injEq, Option.some.injEq] at h
    rw [← h]
  · rw [if_neg hall] at h
    dsimp only at h
    split at h
    · simp at h
    · split at h
      · split at h
        · split at h
          · simp at h
          · split at h
            · simp only [Except.ok.injEq, Option.some.injEq] at h
              rw [← h]
            · simp at h
        · simp only [Except.ok.injEq, Option.some.injEq] at h
          rw [← h]
      · simp at h

lemma computeKeys_snd (c : SortChoice) :
    ∀ (l : List MatchedRecord) (ks : List (SKey × MatchedRecord)),
      computeKeys c l = .ok ks → ks.map Prod.snd = l
  | [], ks => by
    intro h
    simp only [computeKeys] at h
    rw [← Except.ok.inj h]
    rfl
  | m :: rest, ks => by
    simp only [computeKeys]
    cases hk : computeKey c m with
    | error e => intro h; cases h
    | ok k =>
      cases hks : computeKeys c rest with
      | error e => intro h; cases h
      | ok ks2 =>
        intro h
        rw [← Except.ok.inj h]
        simp only [List.map_cons]
        rw [computeKeys_snd c rest ks2 hks]

lemma sortMatches_perm (c : SortChoice) (l l2 : List MatchedRecord)
    (h : sortMatches c l = .ok l2) : l2.Perm l := by
  unfold sortMatches at h
  cases hk : computeKeys c l with
  | error e => rw [hk] at h; cases h
  | ok ks =>
    rw [hk] at h
    rw [← Except.ok.inj h]
    have hperm := List.perm_insertionSort
      (fun p q => pairLeB (reverseFlag c) p q = true) ks
    have := hperm.map Prod.snd
    rw [computeKeys_snd c l ks hk] at this
    exact this

lemma filterRecords_sublist (args : Args) (now : DateTime) :
    ∀ (cat : List ModelRecord) (l : List MatchedRecord),
      (filterRecords args now cat).1 = .ok l →
      (l.map fun m => m.record).Sublist cat
  | [], l => by
    intro h
    simp only [filterRecords] at h
    rw [← Except.ok.inj h]
    simp
  | r :: rest, l => by
    simp only [filterRecords]
    cases hp : (processRecord args now r).1 with
    | error e => intro h; cases h
    | ok o =>
      cases hr : (filterRecords args now rest).1 with
      | error e => intro h; cases h
      | ok l2 =>
        intro h
        have ih := filterRecords_sublist args now rest l2 hr
        rw [← Except.ok.inj h]
        cases o with
        | none => exact ih.cons r
        | some m =>
          simp only [List.map_cons]
          rw [processRecord_record args now r m hp]
          exact ih.cons₂ r

lemma pyTakeInt_sublist (n : ℤ) (l : List α) : (pyTakeInt n l).Sublist l := by
  unfold pyTakeInt
  split <;> exact List.take_sublist _ _

lemma topnStep_subperm (args : Args) (l l2 : List MatchedRecord)
    (h : topnStep args l = some l2) : l2.Subperm l := by
  unfold topnStep at h
  split at h
  · cases hi : pyInt (String.mk ((args.popularity.getD "").data.drop 3)) with
    | error e => rw [hi] at h; cases h
    | ok n =>
      rw [hi] at h
      cases hs : sortMatches .byPopularity l with
      | error e => rw [hs] at h; cases h
      | ok sorted =>
        rw [hs] at h
        rw [← Option.some.inj h]
        exact ((pyTakeInt_sublist n sorted).subperm).trans
          (sortMatches_perm _ l sorted hs).subperm
  · rw [← Option.some.inj h]

lemma finalSortAndPrint_results (ao : List String) (args : Args)
    (m2 : List MatchedRecord) :
    (finalSortAndPrint ao args m2).1.results.Subperm m2 := by
  unfold finalSortAndPrint
  dsimp only
  by_cases hm : m2 ≠ []
  · rw [if_pos hm]
    cases hs : sortMatches (determine_sort_order ao args) m2 with
    | error e =>
      dsimp only
      split
      · exact List.nil_subperm
      · exact List.Subperm.refl m2
    | ok l =>
      dsimp only
      split
      · exact List.nil_subperm
      · exact (sortMatches_perm _ m2 l hs).subperm
  · rw [if_neg hm]
    split
    · exact List.nil_subperm
    · exact List.Subperm.refl m2

lemma subperm_map (f : α → β) {l₁ l₂ : List α} (h : l₁.Subperm l₂) :
    (l₁.map f).Subperm (l₂.map f) := by
  obtain ⟨l, hperm, hsub⟩ := h
  exact ⟨l.map f, hperm.map f, hsub.map f⟩

/-- C10: every query result is a sub-multiset of the loaded catalog — no
stage invents a record or duplicates a loaded one. -/
theorem claim_c10 (arg_order : List String) (args : Args) (catalog : List ModelRecord)
    (now : DateTime) (res : QueryResult) (tr : List DbgMsg)
    (h : runQuery arg_order args catalog now = .ok (res, tr)) :
    (res.results.map fun m => m.record).Subperm catalog := by
  unfold runQuery at h
  split at h
  · rw [← (Prod.mk.inj (Except.ok.inj h)).1]
    exact List.nil_subperm
  · dsimp only at h
    cases hf : (filterRecords args now catalog).1 with
    | error e => rw [hf] at h; cases h
    | ok l =>
      rw [hf] at h
      dsimp only at h
      cases ht : topnStep args l with
      | none =>
        rw [ht] at h
        rw [← (Prod.mk.inj (Except.ok.inj h)).1]
        exact List.nil_subperm
      | some m2 =>
        rw [ht] at h
        rw [← (Prod.mk.inj (Except.ok.inj h)).1]
        exact ((subperm_map (fun m => m.record) (finalSortAndPrint_results arg_order args m2)).trans
          (subperm_map (fun m => m.record) (topnStep_subperm args l m2 ht))).trans
          (filterRecords_sublist args now catalog l hf).subperm

/-- C10 witness: the subperm fact evaluated on a concrete two-record
catalog. -/
theorem claim_c10_witness :
    ((QueryResult.mk [⟨⟨"a", [], [], none, none, none⟩, none⟩] ["a"] 0).results.map
      fun m => m.record).Subperm
      [⟨"a", [], [], none, none, none⟩, ⟨"b", [], [], none, none, none⟩] :=
  claim_c10 ["name"] { name := some "a" }
    [⟨"a", [], [], none, none, none⟩, ⟨"b", [], [], none, none, none⟩]
    epochDT (QueryResult.mk [⟨⟨"a", [], [], none, none, none⟩, none⟩] ["a"] 0) []
    (by decide)

/-! ## Claim C3: top-N truncation happens before the final sort -/

lemma computeKeys_pointwise (c : SortChoice) :
    ∀ (l : List MatchedRecord) (ks : List (SKey × MatchedRecord)),
      computeKeys c l = .ok ks → ∀ pr ∈ ks, computeKey c pr.2 = .ok pr.1
  | [], ks => by
    intro h pr hpr
    have : ([] : List (SKey × MatchedRecord)) = ks := Except.ok.inj h
    rw [← this] at hpr
    cases hpr
  | m :: rest, ks => by
    simp only [computeKeys]
    cases hk : computeKey c m with
    | error e => intro h; cases h
    | ok k =>
      cases hks : computeKeys c rest with
      | error e => intro h; cases h
      | ok ks2 =>
        intro h pr hpr
        have hcons : (k, m) :: ks2 = ks := Except.ok.inj h
        rw [← hcons] at hpr
        rcases List.mem_cons.mp hpr with h1 | h2
        · rw [h1]; exact hk
        · exact computeKeys_pointwise c rest ks2 hks pr h2

lemma computeKeys_of_pointwise (c : SortChoice) :
    ∀ (L : List (SKey × MatchedRecord)),
      (∀ pr ∈ L, computeKey c pr.2 = .ok pr.1) →
      computeKeys c (L.map Prod.snd) = .ok L
  | [] => fun _ => rfl
  | pr :: rest => by
    intro h
    simp only [List.map_cons, computeKeys]
    rw [h pr (List.mem_cons_self pr rest)]
    rw [computeKeys_of_pointwise c rest fun q hq => h q (List.mem_cons_of_mem _ hq)]

lemma parsePullChars_den_pos {cs : List Char} {v : PyFloat}
    (h : parsePullChars cs = .ok v) : 0 < v.den := by
  unfold parsePullChars at h
  split at h
  · rw [← Except.ok.inj h]; exact Nat.one_pos
  · dsimp only at h
    split at h
    · rw [← Except.ok.inj h]; exact Nat.one_pos
    · split at h
      · split at h <;> rw [← Except.ok.inj h] <;>
          simp [pyOfDecimal, PyFloat.mulNat]
      · cases h

/-- Keys of the popularity sort: a float with a positive denominator. -/
def Pq (p : SKey × MatchedRecord) : Prop := ∃ v, p.1 = SKey.q v ∧ 0 < v.den

lemma computeKey_pop_q (m : MatchedRecord) (k : SKey)
    (h : computeKey .byPopularity m = .ok k) : ∃ v, k = SKey.q v ∧ 0 < v.den := by
  unfold computeKey at h
  cases hp : parse_pull_count (m.record.pull_count.getD "0") with
  | error e => rw [hp] at h; cases h
  | ok v =>
    rw [hp] at h
    exact ⟨v, (Except.ok.inj h).symm, parsePullChars_den_pos hp⟩

lemma rPop_total (p q : SKey × MatchedRecord) (hp : Pq p) (hq : Pq q) :
    pairLeB (reverseFlag .byPopularity) p q = true ∨
    pairLeB (reverseFlag .byPopularity) q p = true := by
  obtain ⟨a, ha, _⟩ := hp
  obtain ⟨b, hb, _⟩ := hq
  simp only [pairLeB, reverseFlag, if_true, ha, hb, SKey.leB, PyFloat.leB,
    decide_eq_true_eq]
  exact Int.le_total _ _

lemma rPop_trans (p q s : SKey × MatchedRecord) (hp : Pq p) (hq : Pq q) (hs : Pq s)
    (h1 : pairLeB (reverseFlag .byPopularity) p q = true)
    (h2 : pairLeB (reverseFlag .byPopularity) q s = true) :
    pairLeB (reverseFlag .byPopularity) p s = true := by
  obtain ⟨a, ha, hda⟩ := hp
  obtain ⟨b, hb, hdb⟩ := hq
  obtain ⟨c, hc, hdc⟩ := hs
  simp only [pairLeB, reverseFlag, if_true, ha, hb, hc, SKey.leB, PyFloat.leB,
    decide_eq_true_eq] at h1 h2 ⊢
  have hdb' : (0 : ℤ) < b.den := by exact_mod_cast hdb
  have h1' := mul_le_mul_of_nonneg_right h1 (show (0:ℤ) ≤ c.den by positivity)
  have h2' := mul_le_mul_of_nonneg_right h2 (show (0:ℤ) ≤ b.den by positivity)
  have key : c.num * a.den * b.den ≤ a.num * c.den * b.den := by nlinarith
  exact le_of_mul_le_mul_right key hdb'

lemma sorted_orderedInsert_P {α : Type} (r : α → α → Prop) [DecidableRel r] (P : α → Prop)
    (htot : ∀ a b, P a → P b → r a b ∨ r b a)
    (htrans : ∀ a b c, P a → P b → P c → r a b → r b c → r a c) :
    ∀ (a : α) (l : List α), P a → (∀ x ∈ l, P x) → l.Sorted r →
      (l.orderedInsert r a).Sorted r
  | a, [] => by intro _ _ _; simp
  | a, b :: t => by
    intro hPa hPl hs
    simp only [List.orderedInsert]
    split
    · rename_i hab
      refine List.sorted_cons.mpr ⟨fun x hx => ?_, hs⟩
      rcases List.mem_cons.mp hx with rfl | hxt
      · exact hab
      · exact htrans a b x hPa (hPl b (List.mem_cons_self b t)) (hPl x (List.mem_cons_of_mem _ hxt))
          hab (List.rel_of_sorted_cons hs x hxt)
    · rename_i hab
      have hba : r b a := (htot a b hPa (hPl b (List.mem_cons_self b t))).resolve_left hab
      refine List.sorted_cons.mpr ⟨fun x hx => ?_, ?_⟩
      · rcases (List.mem_orderedInsert r).mp hx with rfl | hxt
        · exact hba
        · exact List.rel_of_sorted_cons hs x hxt
      · exact sorted_orderedInsert_P r P htot htrans a t hPa
          (fun x hx => hPl x (List.mem_cons_of_mem _ hx)) hs.of_cons

lemma sorted_insertionSort_P {α : Type} (r : α → α → Prop) [DecidableRel r] (P : α → Prop)
    (htot : ∀ a b, P a → P b → r a b ∨ r b a)
    (htrans : ∀ a b c, P a → P b → P c → r a b → r b c → r a c) :
    ∀ l : List α, (∀ x ∈ l, P x) → (l.insertionSort r).Sorted r
  | [] => by intro _; simp
  | a :: t => by
    intro hP
    simp only [List.insertionSort]
    refine sorted_orderedInsert_P r P htot htrans a _ (hP a (List.mem_cons_self a t))
      (fun x hx => hP x (List.mem_cons_of_mem _ ((List.mem_insertionSort r).mp hx)))
      (sorted_insertionSort_P r P htot htrans t fun x hx => hP x (List.mem_cons_of_mem _ hx))

lemma pyTakeInt_eq_take (n : ℤ) (l : List α) : ∃ k, pyTakeInt n l = l.take k := by
  unfold pyTakeInt
  split
  · exact ⟨n.toNat, rfl⟩
  · exact ⟨_, rfl⟩

lemma pyTakeInt_map (f : α → β) (n : ℤ) (l : List α) :
    pyTakeInt n (l.map f) = (pyTakeInt n l).map f := by
  unfold pyTakeInt
  simp only [List.length_map]
  split <;> rw [List.map_take]

/-- Sorting an already popularity-sorted truncation leaves it unchanged
(used for the "popularity last" case of C3). -/
lemma sortMatches_pop_take (survivors sortedPop : List MatchedRecord) (n : ℤ)
    (hs : sortMatches .byPopularity survivors = .ok sortedPop) :
    sortMatches .byPopularity (pyTakeInt n sortedPop) = .ok (pyTakeInt n sortedPop) := by
  unfold sortMatches at hs ⊢
  cases hk : computeKeys .byPopularity survivors with
  | error e => rw [hk] at hs; cases hs
  | ok ks =>
    rw [hk] at hs
    have hpw := computeKeys_pointwise _ _ _ hk
    have hLpw : ∀ pr ∈ List.insertionSort
        (fun p q => pairLeB (reverseFlag .byPopularity) p q = true) ks,
        computeKey .byPopularity pr.2 = .ok pr.1 := fun pr hpr =>
      hpw pr ((List.perm_insertionSort _ ks).mem_iff.mp hpr)
    have hLsorted : (List.insertionSort
        (fun p q => pairLeB (reverseFlag .byPopularity) p q = true) ks).Sorted
        (fun p q => pairLeB (reverseFlag .byPopularity) p q = true) :=
      sorted_insertionSort_P _ Pq rPop_total rPop_trans ks fun pr hpr =>
        computeKey_pop_q pr.2 pr.1 (hpw pr hpr)
    have hsp : sortedPop = (List.insertionSort
        (fun p q => pairLeB (reverseFlag .byPopularity) p q = true) ks).map Prod.snd :=
      (Except.ok.inj hs).symm
    rw [hsp, pyTakeInt_map]
    obtain ⟨k, hk2⟩ := pyTakeInt_eq_take n (List.insertionSort
      (fun p q => pairLeB (reverseFlag .byPopularity) p q = true) ks)
    have hTsub := hk2 ▸ List.take_sublist k (List.insertionSort
      (fun p q => pairLeB (reverseFlag .byPopularity) p q = true) ks)
    rw [computeKeys_of_pointwise _ _ fun pr hpr => hLpw pr (hTsub.subset hpr)]
    dsimp only
    rw [List.Sorted.insertionSort_eq (List.Pairwise.sublist hTsub hLsorted)]

lemma finalSortAndPrint_results_perm (ao : List String) (args : Args)
    (m2 : List MatchedRecord) :
    (finalSortAndPrint ao args m2).1.results.Perm m2 := by
  unfold finalSortAndPrint
  dsimp only
  by_cases hm : m2 ≠ []
  · rw [if_pos hm]
    cases hsm : sortMatches (determine_sort_order ao args) m2 with
    | error e =>
      dsimp only
      rw [if_neg hm]
    | ok l =>
      have hp := sortMatches_perm _ m2 l hsm
      dsimp only
      have hl : l ≠ [] := by
        intro hnil
        rw [hnil] at hp
        exact hm hp.nil_eq.symm
      rw [if_neg hl]
      exact hp
  · have hm' : m2 = [] := not_not.mp (by simpa using hm)
    rw [hm']
    simp

lemma finalSortAndPrint_sorted_fix (ao : List String) (args : Args)
    (m2 : List MatchedRecord)
    (hfix : sortMatches (determine_sort_order ao args) m2 = .ok m2) :
    (finalSortAndPrint ao args m2).1.results = m2 := by
  unfold finalSortAndPrint
  dsimp only
  by_cases hm : m2 ≠ []
  · rw [if_pos hm, hfix]
    dsimp only
    rw [if_neg hm]
  · have hm' : m2 = [] := not_not.mp (by simpa using hm)
    rw [hm']
    simp

def c3args : Args := { popularity := some "top3", name := some "a" }

def c3cat : List ModelRecord :=
  [⟨"gamma", [], [], some "5M", none, none⟩, ⟨"zeta", [], [], some "4M", none, none⟩,
    ⟨"alpha", [], [], some "3M", none, none⟩, ⟨"beta", [], [], some "1K", none, none⟩]

/-- C3: with a `topN` popularity filter, the output is always a permutation
of the top-N truncation of the popularity-sorted survivors (truncation
happens before the final sort); it equals that truncation exactly when the
resolver picks the popularity key; and in the concrete `top3` + later
`--name a` query the same three highest-pull-count records come out
re-ordered by the name sort key. -/
theorem claim_c3 :
    (∀ arg_order args catalog now res tr p n survivors sortedPop,
      args.popularity = some p → "top".data.isPrefixOf p.data = true →
      (filterRecords args now catalog).1 = .ok survivors →
      pyInt (String.mk (p.data.drop 3)) = .ok n →
      sortMatches .byPopularity survivors = .ok sortedPop →
      runQuery arg_order args catalog now = .ok (res, tr) →
      res.results.Perm (pyTakeInt n sortedPop) ∧
        (determine_sort_order arg_order args = .byPopularity →
          res.results = pyTakeInt n sortedPop)) ∧
    ((filterRecords c3args epochDT c3cat).1 = .ok (c3cat.map fun r => ⟨r, none⟩)) ∧
    ((sortMatches .byPopularity (c3cat.map fun r => ⟨r, none⟩)).map
        fun l => (pyTakeInt 3 l).map fun m => m.record.model) =
      .ok ["gamma", "zeta", "alpha"] ∧
    ((runQuery ["popularity", "name"] c3args c3cat epochDT).map
        fun pr => pr.1.results.map fun m => m.record.model) =
      .ok ["alpha", "gamma", "zeta"] := by
  refine ⟨?_, by decide, by decide, by decide⟩
  intro arg_order args catalog now res tr p n survivors sortedPop hpop htop hf hn hs h
  have hpne : p ≠ "" := by
    intro hp0
    rw [hp0] at htop
    simp [List.isPrefixOf] at htop
  have hptruthy : truthyS args.popularity = true := by
    simp [truthyS, hpop, hpne]
  have htopn : topnStep args survivors = some (pyTakeInt n sortedPop) := by
    unfold topnStep
    rw [hpop]
    simp only [Option.getD_some]
    rw [if_pos ⟨hptruthy ▸ (by simp [truthyS, hpne] : truthyS (some p) = true), htop⟩]
    rw [hn, hs]
  unfold runQuery at h
  rw [if_neg (by simp [hptruthy])] at h
  dsimp only at h
  rw [hf] at h
  dsimp only at h
  rw [htopn] at h
  dsimp only at h
  have hres : res = (finalSortAndPrint arg_order args (pyTakeInt n sortedPop)).1 :=
    ((Prod.mk.inj (Except.ok.inj h)).1).symm
  constructor
  · rw [hres]
    exact finalSortAndPrint_results_perm arg_order args (pyTakeInt n sortedPop)
  · intro hchoice
    rw [hres]
    refine finalSortAndPrint_sorted_fix arg_order args (pyTakeInt n sortedPop) ?_
    rw [hchoice]
    exact sortMatches_pop_take survivors sortedPop n hs

/-- C3 witness: the general statement of `claim_c3` applied at the concrete
`top3`-then-`--name a` query, discharging every hypothesis by evaluation. -/
theorem claim_c3_witness :
    (QueryResult.mk
        [⟨⟨"alpha", [], [], some "3M", none, none⟩, none⟩,
          ⟨⟨"gamma", [], [], some "5M", none, none⟩, none⟩,
          ⟨⟨"zeta", [], [], some "4M", none, none⟩, none⟩]
        ["alpha", "gamma", "zeta"] 0).results.Perm
      (pyTakeInt 3
        [⟨⟨"gamma", [], [], some "5M", none, none⟩, none⟩,
          ⟨⟨"zeta", [], [], some "4M", none, none⟩, none⟩,
          ⟨⟨"alpha", [], [], some "3M", none, none⟩, none⟩,
          ⟨⟨"beta", [], [], some "1K", none, none⟩, none⟩]) ∧
    (determine_sort_order ["popularity", "name"] c3args = .byPopularity →
      (QueryResult.mk
        [⟨⟨"alpha", [], [], some "3M", none, none⟩, none⟩,
          ⟨⟨"gamma", [], [], some "5M", none, none⟩, none⟩,
          ⟨⟨"zeta", [], [], some "4M", none, none⟩, none⟩]
        ["alpha", "gamma", "zeta"] 0).results = pyTakeInt 3
        [⟨⟨"gamma", [], [], some "5M", none, none⟩, none⟩,
          ⟨⟨"zeta", [], [], some "4M", none, none⟩, none⟩,
          ⟨⟨"alpha", [], [], some "3M", none, none⟩, none⟩,
          ⟨⟨"beta", [], [], some "1K", none, none⟩, none⟩]) :=
  claim_c3.1 ["popularity", "name"] c3args c3cat epochDT
    (QueryResult.mk
      [⟨⟨"alpha", [], [], some "3M", none, none⟩, none⟩,
        ⟨⟨"gamma", [], [], some "5M", none, none⟩, none⟩,
        ⟨⟨"zeta", [], [], some "4M", none, none⟩, none⟩]
      ["alpha", "gamma", "zeta"] 0) [] "top3" 3
    (c3cat.map fun r => ⟨r, none⟩)
    [⟨⟨"gamma", [], [], some "5M", none, none⟩, none⟩,
      ⟨⟨"zeta", [], [], some "4M", none, none⟩, none⟩,
      ⟨⟨"alpha", [], [], some "3M", none, none⟩, none⟩,
      ⟨⟨"beta", [], [], some "1K", none, none⟩, none⟩]
    rfl (by decide) (by decide) (by decide) (by decide) (by decide)

end OllamaModels
